import Mathlib

/-!
Verification of the Logootish List Document Model.

Shallow embedding of `src/listmodel/index.ts` (the `ListDocumentModel`
CRDT engine).  Pure, executable definitions mirror the source; the
modules the source imports (`bst`, `position`, `logoot`, `branch`,
`compare`, `utils`) are not part of the provided sources, so those are
modelled from the specification (each such definition carries a doc
comment starting with `Modelled from the spec:`).
-/

namespace Logootish

/-- Modelled from the spec: a branch key is an opaque identifier whose
registry rank gives a stable total order; we use the rank itself. -/
abbrev Branch := Nat

/-- Modelled from the spec: one level of a `LogootPosition`: a pair of a
`LogootInt` atom (arbitrary-precision signed integer, modelled as `Int`)
and a branch key. -/
structure Lv where
  i : Int
  b : Branch
deriving DecidableEq, Repr

/-- Modelled from the spec: a `LogootPosition` is an ordered sequence of
levels (length at least 1 by convention). -/
abbrev Pos := List Lv

/-- Modelled from the spec: comparison of one level: atoms compared
numerically, ties broken by branch rank. -/
def lvCmp (x y : Lv) : Ordering :=
  if x.i < y.i then .lt
  else if y.i < x.i then .gt
  else if x.b < y.b then .lt
  else if y.b < x.b then .gt
  else .eq

/-- Modelled from the spec: lexicographic comparison of positions by
level; among positions equal up to a common prefix the shorter sorts
before the longer. -/
def posCmp : Pos → Pos → Ordering
  | [], [] => .eq
  | [], _ :: _ => .lt
  | _ :: _, [] => .gt
  | x :: xs, y :: ys =>
    match lvCmp x y with
    | .eq => posCmp xs ys
    | o => o

def posLt (a b : Pos) : Bool := posCmp a b == .lt
def posGt (a b : Pos) : Bool := posCmp a b == .gt
def posLteq (a b : Pos) : Bool := !(posGt a b)
def posGteq (a b : Pos) : Bool := !(posLt a b)
def posEq (a b : Pos) : Bool := posCmp a b == .eq

/-- Modelled from the spec: `offsetLowest(k)`: a new position equal to
self with the lowest-level atom incremented by `k`. -/
def offsetLowest : Pos → Int → Pos
  | [], _ => []
  | [x], k => [⟨x.i + k, x.b⟩]
  | x :: y :: xs, k => x :: offsetLowest (y :: xs) k

/-- Modelled from the spec: `inverseOffsetLowest(k)` decrements the
lowest-level atom by `k`. -/
def inverseOffsetLowest (p : Pos) (k : Int) : Pos := offsetLowest p (-k)

/-- Modelled from the spec: `levels` is the index of the lowest level
(number of levels minus one, as used by `position.levels` in the
source's callers). -/
def levels (p : Pos) : Nat := p.length - 1

/-- Modelled from the spec: `length` of a position is its number of
levels. -/
def posLen (p : Pos) : Nat := p.length

/-- Modelled from the spec: the atom (`LogootInt` component) of the
level at index `l`, as `position.l(l)[0]` in the source. -/
def atomAt (p : Pos) (l : Nat) : Int := (p.getD l ⟨0, 0⟩).i

/-- Modelled from the spec: overwrite the atom at level `l`
(as `position.l(l)[0].assign(v)` in the source). -/
def setAtom (p : Pos) (l : Nat) (v : Int) : Pos :=
  p.modify (fun x => ⟨v, x.b⟩) l

/-- Modelled from the spec: an anchor is either a real position or one
of the sentinels `DocStart` / `DocEnd`, which compare less than and
greater than every real position respectively. -/
inductive Anchor where
  | docStart
  | pos (p : Pos)
  | docEnd
deriving DecidableEq, Repr

/-- Modelled from the spec: comparison extended to sentinels. -/
def aCmp : Anchor → Anchor → Ordering
  | .docStart, .docStart => .eq
  | .docStart, _ => .lt
  | _, .docStart => .gt
  | .docEnd, .docEnd => .eq
  | _, .docEnd => .lt
  | .docEnd, _ => .gt
  | .pos a, .pos b => posCmp a b

def aLt (a b : Anchor) : Bool := aCmp a b == .lt
def aGt (a b : Anchor) : Bool := aCmp a b == .gt

/-- Node type tag from the source: `DATA`, `REMOVAL` or `DUMMY`. -/
inductive NodeType where
  | data
  | removal
  | dummy
deriving DecidableEq, Repr

/-- An `AnchorLogootNode`.  `value` is the node's `ldoc_start` (the
model stores the absolute local offset; the source computes it from BST
aggregates).  `conflict_with` is the set of conflicting nodes, kept as
a sorted duplicate-free list of node ids. -/
structure Node where
  id : Nat
  logoot_start : Pos
  length : Int
  type : NodeType
  clk : Int
  value : Int
  left_anchor : Anchor
  right_anchor : Anchor
  conflict_with : List Nat
deriving DecidableEq, Repr

/-- Derived `logoot_end = logoot_start.offsetLowest(length)`. -/
def Node.logoot_end (n : Node) : Pos := offsetLowest n.logoot_start n.length

/-- Derived `ldoc_length`: `length` for `DATA` nodes, zero otherwise. -/
def Node.ldoc_length (n : Node) : Int :=
  match n.type with
  | .data => n.length
  | _ => 0

/-- Accessor `ldoc_start`: the stored absolute offset in this model. -/
def Node.ldoc_start (n : Node) : Int := n.value

/-- Derived `ldoc_end = ldoc_start + ldoc_length`. -/
def Node.ldoc_end (n : Node) : Int := n.value + n.ldoc_length

/-- Modelled from the spec: `true_left` — for both `DATA` and `REMOVAL`
nodes this is the stored `left_anchor`. -/
def Node.true_left (n : Node) : Anchor := n.left_anchor

/-- Modelled from the spec: `true_right` — the stored `right_anchor`. -/
def Node.true_right (n : Node) : Anchor := n.right_anchor

/-- Modelled from the spec: `preferential_cmp` orders nodes primarily by
`logoot_start` with the shorter-before-longer rule. -/
def prefCmp (a b : Node) : Ordering := posCmp a.logoot_start b.logoot_start

/-- Modelled from the spec: `reduceLeft(pos)`: if `pos > left_anchor`,
set `left_anchor = pos`; anchors only move inward. -/
def Node.reduceLeft (n : Node) (p : Pos) : Node :=
  if aGt (.pos p) n.left_anchor then { n with left_anchor := .pos p } else n

/-- Modelled from the spec: `reduceRight(pos)`: if `pos < right_anchor`,
set `right_anchor = pos`. -/
def Node.reduceRight (n : Node) (p : Pos) : Node :=
  if aLt (.pos p) n.right_anchor then { n with right_anchor := .pos p } else n

/-- Insert an id into a sorted duplicate-free id list (canonical
representation of the `conflict_with` set). -/
def cwAdd : List Nat → Nat → List Nat
  | [], x => [x]
  | y :: ys, x =>
    if x < y then x :: y :: ys
    else if x = y then y :: ys
    else y :: cwAdd ys x

def cwDel (l : List Nat) (x : Nat) : List Nat := l.filter (fun y => y ≠ x)

/-- The document state: `store` holds every node ever created keyed by
id; `order` is the in-order list of the ids currently in the BST, kept
sorted by `preferential_cmp`; `next` is the id supply. -/
structure St where
  store : List (Nat × Node)
  order : List Nat
  next : Nat
deriving DecidableEq, Repr

def emptySt : St := ⟨[], [], 0⟩

def defaultNode : Node :=
  ⟨0, [⟨0, 0⟩], 0, .dummy, 0, 0, .docStart, .docEnd, []⟩

/-- Look a node up by id. -/
def getN (s : St) (i : Nat) : Node :=
  match s.store.find? (fun p => p.1 = i) with
  | some p => p.2
  | none => defaultNode

/-- Update the node with id `i`. -/
def upd (s : St) (i : Nat) (f : Node → Node) : St :=
  { s with store := s.store.map (fun p => if p.1 = i then (p.1, f p.2) else p) }

/-- Create a fresh node (with a fresh id) in the store, not yet in the
BST order.  Returns the id. -/
def mkNode (s : St) (n : Node) : St × Nat :=
  let i := s.next
  (⟨s.store ++ [(i, { n with id := i })], s.order, i + 1⟩, i)

/-- Modelled from the spec: `DBst.add` inserts a node into the ordered
index, maintaining `preferential_cmp` order. -/
def bstAdd (s : St) (i : Nat) : St :=
  let n := getN s i
  let rec ins : List Nat → List Nat
    | [] => [i]
    | j :: js =>
      if posLt n.logoot_start (getN s j).logoot_start then i :: j :: js
      else j :: ins js
  { s with order := ins s.order }

/-- Modelled from the spec: `inorder_successor` — the next id in the
ordered index, `none` for the last node or for nodes not in the index. -/
def succId (s : St) (i : Nat) : Option Nat :=
  let rec go : List Nat → Option Nat
    | [] => none
    | [_] => none
    | j :: k :: js => if j = i then some k else go (k :: js)
  go s.order

/-- Modelled from the spec: `inorder_predecessor`. -/
def predId (s : St) (i : Nat) : Option Nat :=
  let rec go : List Nat → Option Nat
    | [] => none
    | [_] => none
    | j :: k :: js => if k = i then some j else go (k :: js)
  go s.order

/-- The walk of `addSpaceBefore`: once the target id has been seen,
every id shifts its `value` by `delta`. -/
def shiftGo (i : Nat) (delta : Int) : List Nat → St → Bool → St
  | [], st, _ => st
  | j :: js, st, seen =>
    let seen' := seen || j = i
    let st' :=
      if seen' then upd st j (fun n => { n with value := n.value + delta })
      else st
    shiftGo i delta js st' seen'

/-- Modelled from the spec: `addSpaceBefore(delta)` on a node shifts the
`ldoc_start` of that node and all of its in-order successors by
`delta` (the BST aggregate adjustment). -/
def shiftFrom (s : St) (i : Nat) (delta : Int) : St :=
  shiftGo i delta s.order s false

/-- A local-document `Operation` (the `mark` kind is never produced by
the algorithms under verification). -/
inductive Op where
  | ins (start offset length : Int)
  | rem (start length : Int)
deriving DecidableEq, Repr

/-- The three error kinds of the specification.  `TypeError` raised by
`insertLocal` corresponds to `InvalidArgument`, `InternalError` to
`Internal` and `FatalError` to `Fatal`. -/
inductive Err where
  | invalidArgument
  | internal
  | fatal
deriving DecidableEq, Repr

instance {ε α : Type} [DecidableEq ε] [DecidableEq α] :
    DecidableEq (Except ε α) := fun a b =>
  match a, b with
  | .ok x, .ok y =>
    if h : x = y then .isTrue (by rw [h])
    else .isFalse (fun hc => h (by cases hc; rfl))
  | .error x, .error y =>
    if h : x = y then .isTrue (by rw [h])
    else .isFalse (fun hc => h (by cases hc; rfl))
  | .ok _, .error _ => .isFalse (fun hc => by cases hc)
  | .error _, .ok _ => .isFalse (fun hc => by cases hc)

/-- State of an `OperationBuffer`: accumulated operations, the optional
dummy anchor node (by id; the dummy is in the store but not in the BST
order) and the `length_avail` declared at creation. -/
structure OpBuf where
  ops : List Op
  dummy : Option Nat
  avail : Int
deriving DecidableEq, Repr

/-- The buffer's dummy-node adjustment: when a dummy anchor node is
attached and its `ldoc_start` is at or past the change, its `value`
shifts by `delta`. -/
def obDum (ob : OpBuf) (start delta : Int) (s : St) : St :=
  match ob.dummy with
  | some d =>
    if (getN s d).ldoc_start ≥ start then
      upd s d (fun n => { n with value := n.value + delta })
    else s
  | none => s

/-- The buffer's successor shift: the node's in-order successor (and
everything after it) shifts by `delta` via `addSpaceBefore`. -/
def obShift (nid : Nat) (delta : Int) (s : St) : St :=
  match succId s nid with
  | some m => shiftFrom s m delta
  | none => s

/-- Source `OperationBuffer.remove`: zero lengths return at
once; negative `start`/`length` raise `FatalError`; otherwise the
operation is appended, the dummy (if its `ldoc_start ≥ start`) is
shifted down and the node's in-order successor (and everything after
it) is shifted by `-length`. -/
def obRemove (s : St) (ob : OpBuf) (nid : Nat) (start length : Int) :
    Except Err (St × OpBuf) :=
  if length = 0 then .ok (s, ob)
  else if start < 0 then .error .fatal
  else if length < 0 then .error .fatal
  else
    .ok (obShift nid (-length) (obDum ob start (-length) s),
      { ob with ops := ob.ops ++ [.rem start length] })

/-- Source `OperationBuffer.insert`: zero lengths return at
once; negative `start`/`length` raise `FatalError`; an offset past the
available data (`offset + length > length_avail`) raises `FatalError`;
otherwise the operation is appended and offsets are shifted up. -/
def obInsert (s : St) (ob : OpBuf) (nid : Nat) (start offset length : Int) :
    Except Err (St × OpBuf) :=
  if length = 0 then .ok (s, ob)
  else if start < 0 then .error .fatal
  else if length < 0 then .error .fatal
  else if offset + length > ob.avail then .error .fatal
  else
    .ok (obShift nid length (obDum ob start length s),
      { ob with ops := ob.ops ++ [.ins start offset length] })

/-! Section: `insertLocal` (source lines 431-490) -/

/-- Modelled from the spec: the BST point search for nodes touching
local offset `start`, lesser bucket (the source comment: nodes with
key `< start`); a node `[s, e]` touches `start` when `s < start ≤ e`. -/
def lesserBucket (s : St) (start : Int) : List Nat :=
  s.order.filter (fun i =>
    decide ((getN s i).ldoc_start < start ∧ start ≤ (getN s i).ldoc_end))

/-- Modelled from the spec: greater bucket of the point search: nodes
with key `≥ start` touching `start`, i.e. `ldoc_start = start`. -/
def greaterBucket (s : St) (start : Int) : List Nat :=
  s.order.filter (fun i => decide ((getN s i).ldoc_start = start))

/-- The clock fold of `insertLocal` (source lines 449-457): for every
non-`DATA` node returned by the search, if its clock is `≥` the running
maximum, the maximum becomes that clock plus one. -/
def deriveClk (clks : List Int) : Int :=
  clks.foldl (fun m c => if c ≥ m then c + 1 else m) 0

/-- The clocks of the non-`DATA` nodes among the given ids. -/
def nonDataClks (s : St) (ids : List Nat) : List Int :=
  (ids.filter (fun i => decide ((getN s i).type ≠ .data))).map
    (fun i => (getN s i).clk)

/-- The `DATA` nodes among the given ids. -/
def dataNodes (s : St) (ids : List Nat) : List Nat :=
  ids.filter (fun i => decide ((getN s i).type = .data))

/-- The `search` helper of `insertLocal` (source lines 459-476): the
unique `DATA` node of a bucket; two or more raise `InternalError`. -/
def uniqueData (s : St) (ids : List Nat) : Except Err (Option Nat) :=
  match dataNodes s ids with
  | [] => .ok none
  | [d] => .ok (some d)
  | _ => .error .internal

/-- The result record of `insertLocal`. -/
structure InsRes where
  left : Option Pos
  right : Option Pos
  clk : Int
  length : Int
deriving DecidableEq, Repr

/-- Source `ListDocumentModel.insertLocal` (lines 431-490). -/
def insertLocal (s : St) (start length : Int) : Except Err InsRes :=
  if start < 0 then .error .invalidArgument
  else if length ≤ 0 then .error .invalidArgument
  else
    let lb := lesserBucket s start
    let gb := greaterBucket s start
    let clk := deriveClk (nonDataClks s (lb ++ gb))
    match uniqueData s lb with
    | .error e => .error e
    | .ok (some d) =>
      let dn := getN s d
      if dn.ldoc_end > start then
        let p := offsetLowest dn.logoot_start (start - dn.ldoc_start)
        .ok ⟨some p, some p, clk, length⟩
      else
        match uniqueData s gb with
        | .error e => .error e
        | .ok g =>
          .ok ⟨some dn.logoot_end, g.map (fun i => (getN s i).logoot_start),
               clk, length⟩
    | .ok none =>
      match uniqueData s gb with
      | .error e => .error e
      | .ok g =>
        .ok ⟨none, g.map (fun i => (getN s i).logoot_start), clk, length⟩

/-! Section: Range slicing (`sliceNodesIntoRanges`, modelled from the spec) -/

/-- Number of the node's atoms whose position is strictly below `b`
(the split index of a node at a boundary). -/
def splitIdx (n : Node) (b : Pos) : Int :=
  ((List.range n.length.toNat).countP
    (fun i => posLt (offsetLowest n.logoot_start i) b) : Nat)

/-- Modelled from the spec: splitting a node at atom index `idx`
(`0 < idx < length`): the left half keeps the id, start, `ldoc_start`
and left anchor and is truncated to `idx` atoms; the right half is a
fresh node sharing `type`, `clk` and `conflict_with` membership with a
contiguous `ldoc_start`; the two inner anchors abut at the cut.  The
fresh half is announced to the BST (`onSplit` is `bst.add` at both call
sites). -/
def splitNode (s : St) (i : Nat) (idx : Int) : St × Nat :=
  let n := getN s i
  let rstart := offsetLowest n.logoot_start idx
  let rnode : Node :=
    ⟨0, rstart, n.length - idx, n.type, n.clk,
     n.value + (if n.ldoc_length ≠ 0 then idx else 0),
     .pos rstart, n.right_anchor, n.conflict_with⟩
  let (s1, j) := mkNode s rnode
  let s2 := upd s1 i (fun m => { m with length := idx, right_anchor := .pos rstart })
  let s3 := { s2 with store := s2.store.map (fun p =>
      if p.2.conflict_with.contains i then
        (p.1, { p.2 with conflict_with := cwAdd p.2.conflict_with j })
      else p) }
  (bstAdd s3 j, j)

/-- Sorted insertion of an id into an id list by `preferential_cmp`. -/
def sortedIns (s : St) (j : Nat) : List Nat → List Nat
  | [] => [j]
  | i :: is =>
    if posLt (getN s j).logoot_start (getN s i).logoot_start then j :: i :: is
    else i :: sortedIns s j is

/-- Modelled from the spec: one boundary of `sliceNodesIntoRanges`:
partition the sorted ids into those before `b` and those from `b` on,
splitting a straddler (a node whose atoms lie on both sides of `b`). -/
def sliceAt (s : St) (b : Pos) : Nat → List Nat → St × List Nat × List Nat
  | 0, ids => (s, [], ids)
  | _, [] => (s, [], [])
  | fuel + 1, i :: rest =>
    let n := getN s i
    if posGteq n.logoot_start b then (s, [], i :: rest)
    else if splitIdx n b ≥ n.length then
      let r := sliceAt s b fuel rest
      (r.1, i :: r.2.1, r.2.2)
    else
      let p := splitNode s i (splitIdx n b)
      let r := sliceAt p.1 b fuel (sortedIns p.1 p.2 rest)
      (r.1, i :: r.2.1, r.2.2)

/-- Modelled from the spec: `sliceNodesIntoRanges`: `k` ascending
boundaries partition the sorted ids into `k+1` groups. -/
def sliceRanges (s : St) (bounds : List Pos) (fuel : Nat) (ids : List Nat) :
    St × List (List Nat) :=
  match bounds with
  | [] => (s, [ids])
  | b :: bs =>
    let r := sliceAt s b fuel ids
    let r2 := sliceRanges r.1 bs fuel r.2.2
    (r2.1, r.2.1 :: r2.2)

/-! Section: `removeLogoot` (source lines 647-786) -/

/-- One iteration of the removal loop (source lines 681-687): when the
node's clock is `≤ clk` and its `logoot_start` has the same number of
levels as `start`, a `remove` of its current `ldoc_length` is issued to
the buffer, the node is re-typed to `REMOVAL` and its clock is assigned
`clk`; otherwise the node is untouched. -/
def rmStep (clk : Int) (startLen : Nat) (acc : Except Err (St × OpBuf))
    (i : Nat) : Except Err (St × OpBuf) :=
  match acc with
  | .error e => .error e
  | .ok (s, ob) =>
    let n := getN s i
    if n.clk ≤ clk ∧ posLen n.logoot_start = startLen then
      match obRemove s ob i n.ldoc_start n.ldoc_length with
      | .error e => .error e
      | .ok (s', ob') =>
        .ok (upd s' i (fun m => { m with type := .removal, clk := clk }), ob')
    else .ok (s, ob)

/-- The removal loop over `rm_range`. -/
def rmLoop (clk : Int) (startLen : Nat) (s : St) (ob : OpBuf)
    (ids : List Nat) : Except Err (St × OpBuf) :=
  ids.foldl (rmStep clk startLen) (.ok (s, ob))

/-- Growing `lesser` backwards while its leading node is a `REMOVAL`
(source lines 689-696). -/
def growLesser (s : St) : Nat → List Nat → List Nat
  | 0, l => l
  | fuel + 1, l =>
    match l with
    | [] => []
    | h :: _ =>
      if (getN s h).type = .removal then
        match predId s h with
        | some p => growLesser s fuel (p :: l)
        | none => l
      else l

/-- Growing `greater` forwards while its last node is a `REMOVAL`
(source lines 697-704). -/
def growGreater (s : St) : Nat → List Nat → List Nat
  | 0, l => l
  | fuel + 1, l =>
    match l.getLast? with
    | none => []
    | some h =>
      if (getN s h).type = .removal then
        match succId s h with
        | some p => growGreater s fuel (l ++ [p])
        | none => l
      else l

/-- Does this anchor equal the given position (the source's
`anchor !== sentinel && anchor.eq(pos)` pattern)? -/
def aIsPos (a : Anchor) (p : Pos) : Bool :=
  match a with
  | .pos q => posEq q p
  | _ => false

/-- The `fixConflicts` closure of `patchNewRemovalAnchors` (source
lines 732-750), forward direction: walk the accumulated removal nodes,
stopping at the first whose `conflict_with` lacks the current node;
drop the current node from a walker whose `logoot_end ≤ node.true_left`. -/
def fixConflictsF (s : St) (nodeId : Nat) : List Nat → St
  | [] => s
  | c :: cs =>
    let cn := getN s c
    if ¬ cn.conflict_with.contains nodeId then s
    else
      let nd := getN s nodeId
      let s' :=
        match nd.true_left with
        | .pos p =>
          if posLteq cn.logoot_end p then
            upd s c (fun m => { m with conflict_with := cwDel m.conflict_with nodeId })
          else s
        | _ => s
      fixConflictsF s' nodeId cs

/-- Backward direction of `fixConflicts`: drop the current node from a
walker whose `logoot_start ≥ node.true_right`. -/
def fixConflictsB (s : St) (nodeId : Nat) : List Nat → St
  | [] => s
  | c :: cs =>
    let cn := getN s c
    if ¬ cn.conflict_with.contains nodeId then s
    else
      let nd := getN s nodeId
      let s' :=
        match nd.true_right with
        | .pos p =>
          if posGteq cn.logoot_start p then
            upd s c (fun m => { m with conflict_with := cwDel m.conflict_with nodeId })
          else s
        | _ => s
      fixConflictsB s' nodeId cs

/-- The scan-set of a node: `new Set(node.conflict_with)` followed by
`add(node)` (source idiom). -/
def scanSetOf (s : St) (i : Nat) : List Nat :=
  let n := getN s i
  if n.conflict_with.contains i then n.conflict_with
  else n.conflict_with ++ [i]

/-- Per-scan-node step of `patchNewRemovalAnchors`, forward (source
lines 751-757): when the scan node's `true_right` abuts the current
(non-`DATA`) node's `logoot_start`, the node's left anchor is reduced
to the scan node's `logoot_end` and `fixConflicts` runs. -/
def pnraSnodeF (rm : List Nat) (nodeId : Nat) (s : St) (snode : Nat) : St :=
  let sn := getN s snode
  let nd := getN s nodeId
  if aIsPos sn.true_right nd.logoot_start then
    let s1 := upd s nodeId (fun m => m.reduceLeft (offsetLowest sn.logoot_start sn.length))
    fixConflictsF s1 nodeId rm
  else s

/-- Per-scan-node step of `patchNewRemovalAnchors`, backward (source
lines 758-765). -/
def pnraSnodeB (rm : List Nat) (nodeId : Nat) (s : St) (snode : Nat) : St :=
  let sn := getN s snode
  let nd := getN s nodeId
  if aIsPos sn.true_left (offsetLowest nd.logoot_start nd.length) then
    let s1 := upd s nodeId (fun m => m.reduceRight sn.logoot_start)
    fixConflictsB s1 nodeId rm
  else s

/-- Per-range-node step of `patchNewRemovalAnchors`, forward (source
lines 727-775): `DATA` clears the removal walker list; otherwise every
scan node is processed and the node is prepended to the walkers; in
both cases the scan-set is reset to the node's own. -/
def pnraNodeF (acc : St × List Nat × List Nat) (nodeId : Nat) :
    St × List Nat × List Nat :=
  let s := acc.1
  let scan := acc.2.1
  let rm := acc.2.2
  if (getN s nodeId).type = .data then
    (s, scanSetOf s nodeId, [])
  else
    let s' := scan.foldl (pnraSnodeF rm nodeId) s
    (s', scanSetOf s' nodeId, nodeId :: rm)

/-- Per-range-node step of `patchNewRemovalAnchors`, backward
(walkers are appended rather than prepended, per the source's
`push` / `unshift` pair). -/
def pnraNodeB (acc : St × List Nat × List Nat) (nodeId : Nat) :
    St × List Nat × List Nat :=
  let s := acc.1
  let scan := acc.2.1
  let rm := acc.2.2
  if (getN s nodeId).type = .data then
    (s, scanSetOf s nodeId, [])
  else
    let s' := scan.foldl (pnraSnodeB rm nodeId) s
    (s', scanSetOf s' nodeId, rm ++ [nodeId])

/-- Source `patchNewRemovalAnchors(range, false)` (line 780). -/
def pnraF (s : St) (range : List Nat) : St :=
  (range.foldl pnraNodeF (s, [], [])).1

/-- Source `patchNewRemovalAnchors(range, true)` (line 781). -/
def pnraB (s : St) (range : List Nat) : St :=
  (range.reverse.foldl pnraNodeB (s, [], [])).1

/-- Is the anchor strictly below the position (the source's
`apos.lt(pos)` after the `as LogootPosition` cast)? -/
def aLtP (a : Anchor) (p : Pos) : Bool :=
  match a with
  | .docStart => true
  | .pos q => posLt q p
  | .docEnd => false

/-- Is the anchor strictly above the position? -/
def aGtP (a : Anchor) (p : Pos) : Bool :=
  match a with
  | .docStart => false
  | .pos q => posGt q p
  | .docEnd => true

/-- Per-scan-node step of the forward pass of `patchRemovalAnchors`
(source lines 378-394): `apos = snode.true_right`; below the current
node's `logoot_start` the scan node is dropped; otherwise, when `apos`
is below `logoot_end` the scan node's right anchor is assigned the
node's `logoot_end`, and the scan node is added to the node's
`conflict_with`. -/
def praSnodeF (nodeId : Nat) (acc : St × List Nat) (snode : Nat) :
    St × List Nat :=
  let s := acc.1
  let kept := acc.2
  let apos := (getN s snode).true_right
  let nd := getN s nodeId
  if aLtP apos nd.logoot_start then (s, kept)
  else
    let s1 :=
      if aLtP apos (offsetLowest nd.logoot_start nd.length) then
        upd s snode (fun m =>
          { m with right_anchor := .pos (offsetLowest nd.logoot_start nd.length) })
      else s
    let s2 := upd s1 nodeId (fun m =>
      { m with conflict_with := cwAdd m.conflict_with snode })
    (s2, kept ++ [snode])

/-- Per-scan-node step of the backward pass of `patchRemovalAnchors`
(mirrored on `true_left` / `logoot_end` / `left_anchor`). -/
def praSnodeB (nodeId : Nat) (acc : St × List Nat) (snode : Nat) :
    St × List Nat :=
  let s := acc.1
  let kept := acc.2
  let apos := (getN s snode).true_left
  let nd := getN s nodeId
  if aGtP apos (offsetLowest nd.logoot_start nd.length) then (s, kept)
  else
    let s1 :=
      if aGtP apos nd.logoot_start then
        upd s snode (fun m => { m with left_anchor := .pos nd.logoot_start })
      else s
    let s2 := upd s1 nodeId (fun m =>
      { m with conflict_with := cwAdd m.conflict_with snode })
    (s2, kept ++ [snode])

/-- Per-range-node step of `patchRemovalAnchors`, forward (source
lines 365-396): at a `DATA` node the scan-set is reset to the node and
its conflicts minus those anchored at `DocEnd`; at other nodes every
scan member is processed by `praSnodeF`. -/
def praNodeF (acc : St × List Nat) (nodeId : Nat) : St × List Nat :=
  let s := acc.1
  let scan := acc.2
  if (getN s nodeId).type = .data then
    (s, (scanSetOf s nodeId).filter
      (fun j => decide ((getN s j).true_right ≠ .docEnd)))
  else
    scan.foldl (praSnodeF nodeId) (s, [])

/-- Per-range-node step of `patchRemovalAnchors`, backward. -/
def praNodeB (acc : St × List Nat) (nodeId : Nat) : St × List Nat :=
  let s := acc.1
  let scan := acc.2
  if (getN s nodeId).type = .data then
    (s, (scanSetOf s nodeId).filter
      (fun j => decide ((getN s j).true_left ≠ .docStart)))
  else
    scan.foldl (praSnodeB nodeId) (s, [])

/-- Source `patchRemovalAnchors(range, backwards)` (lines 357-400). -/
def praPass (s : St) (range : List Nat) (backwards : Bool) : St :=
  if backwards then (range.reverse.foldl praNodeB (s, [])).1
  else (range.foldl praNodeF (s, [])).1

/-- Source `ListDocumentModel.removeLogoot` (lines 647-786). -/
def removeLogoot (s : St) (start : Pos) (length clk : Int) :
    Except Err (St × List Op) :=
  let endp := offsetLowest start length
  let blob := s.order
  let fuel := 2 * blob.length + 2
  let r := sliceRanges s [start, endp] fuel blob
  let s1 := r.1
  let lesser0 := r.2.getD 0 []
  let rm_range := r.2.getD 1 []
  let greater0 := r.2.getD 2 []
  let ob0 : OpBuf := ⟨[], none, 0⟩
  match rmLoop clk (posLen start) s1 ob0 rm_range with
  | .error e => .error e
  | .ok (s2, ob) =>
    let lesser := growLesser s2 (s2.order.length + 1) lesser0
    let greater := growGreater s2 (s2.order.length + 1) greater0
    let full := lesser ++ rm_range ++ greater
    let s3 := pnraF s2 full
    let s4 := pnraB s3 full
    let s5 := praPass s4 full false
    let s6 := praPass s5 full true
    .ok (s6, ob.ops)

/-! Section: Position generation (`LogootPosition.newBetween`) -/

/-- Modelled from the spec: the recursive core of `newBetween` for two
real neighbours: walk the shared prefix; at the first difference use
that level when a run of `length` atoms fits strictly between the two
atoms, and otherwise append a new lower level on `branch`, descending
on whichever neighbour has the shorter prefix (on the left when equal,
per the documented convention). -/
def nbAux (br : Branch) (length : Int) (fullL fullR : Pos) :
    Pos → Pos → Pos
  | [], [] => [⟨0, br⟩]
  | [], r :: _ => [⟨r.i - length, br⟩]
  | l :: _, [] => [⟨l.i + 1, br⟩]
  | l :: ls, r :: rs =>
    if l = r then l :: nbAux br length fullL fullR ls rs
    else if r.i - l.i > length then [⟨l.i + 1, br⟩]
    else if posLen fullL ≤ posLen fullR then
      l :: (match ls with
            | [] => [⟨0, br⟩]
            | x :: _ => [⟨x.i + 1, br⟩])
    else
      match rs with
      | [] => l :: (match ls with
                    | [] => [⟨0, br⟩]
                    | x :: _ => [⟨x.i + 1, br⟩])
      | x :: _ => r :: [⟨x.i - length, br⟩]

/-- Modelled from the spec: `LogootPosition.newBetween(branch, length,
left, right)`: a position strictly between the neighbours such that
`length` contiguous lowest-level atoms fit in the open interval; an
absent left neighbour anchors at `right - length`, an absent right
neighbour continues at `left`, and an empty document starts a fresh
level on `branch`. -/
def newBetween (br : Branch) (length : Int) :
    Option Pos → Option Pos → Pos
  | none, none => [⟨0, br⟩]
  | some l, none => l
  | none, some r => inverseOffsetLowest r length
  | some l, some r => nbAux br length l r l r

/-! Section: `constructSkipRanges` (source lines 151-239) -/

/-- The `lowestData` helper (source lines 215-223): the first `DATA`
node in iteration order, if any. -/
def lowestData (s : St) : List Nat → Option Nat
  | [] => none
  | i :: is => if (getN s i).type = .data then some i else lowestData s is

/-- The result of `constructSkipRanges`. -/
structure CSR where
  anchor_left : Option Nat
  nc_left : List Nat
  skip_ranges : List Nat
  nc_right : List Nat
  anchor_right : Option Nat
deriving DecidableEq, Repr

/-- Source `constructSkipRanges` (lines 151-239): search the BST around
`(left-1 .. right]`, slice the result at `[left|start, start, end,
right|end]`, merge the outer groups into the conflict groups when a
bound is absent, append a `DUMMY` node at `end` when the skip ranges do
not reach it (its `ldoc_start` taken from the nearest group with the
priority of the source), and resolve the outer anchors. -/
def constructSkipRanges (s : St) (left right : Option Pos)
    (start endp : Pos) : St × CSR :=
  let blob := s.order
  let lesserIds :=
    match left with
    | some l => blob.filter (fun i =>
        posLteq (getN s i).logoot_start (inverseOffsetLowest l 1))
    | none => []
  let b1 := left.getD start
  let b4 := right.getD endp
  let fuel := 2 * blob.length + 2
  let r := sliceRanges s [b1, start, endp, b4] fuel blob
  let s1 := r.1
  let aleft0 := r.2.getD 0 []
  let nc_left0 := r.2.getD 1 []
  let skip0 := r.2.getD 2 []
  let nc_right0 := r.2.getD 3 []
  let aright0 := r.2.getD 4 []
  let aleft := if left.isNone then [] else aleft0
  let nc_left := if left.isNone then nc_left0 ++ aleft0 else nc_left0
  let aright := if right.isNone then [] else aright0
  let nc_right := if right.isNone then nc_right0 ++ aright0 else nc_right0
  let needDummy :=
    match skip0.getLast? with
    | none => true
    | some lastid =>
      posLt (offsetLowest (getN s1 lastid).logoot_start
        (getN s1 lastid).length) endp
  let dummyVal :=
    match skip0.getLast? with
    | some lastid => (getN s1 lastid).ldoc_end
    | none =>
      match nc_right.head? with
      | some fst => (getN s1 fst).ldoc_start
      | none =>
        match nc_left.getLast? with
        | some lst => (getN s1 lst).ldoc_end
        | none =>
          match lesserIds.getLast? with
          | some lst => (getN s1 lst).ldoc_end
          | none => 0
  let dummyNode : Node :=
    ⟨0, endp, 0, .dummy, 0, dummyVal, .pos endp, .pos endp, []⟩
  let sr :=
    if needDummy then
      let p := mkNode s1 dummyNode
      (p.1, skip0 ++ [p.2])
    else (s1, skip0)
  let s2 := sr.1
  let al0 := lowestData s2 aleft.reverse
  let anchor_left :=
    match left, al0 with
    | some l, some a =>
      if posEq (offsetLowest (getN s2 a).logoot_start (getN s2 a).length) l
      then some a else none
    | _, _ => none
  let ar0 := lowestData s2 aright
  let anchor_right :=
    match right, ar0 with
    | some rp, some a =>
      if posEq (getN s2 a).logoot_start rp then some a else none
    | _, _ => none
  (s2, ⟨anchor_left, nc_left, sr.2, nc_right, anchor_right⟩)

/-! Section: `fillSkipRanges` (source lines 241-308) -/

/-- One step of `fillSkipRanges`: first a fresh `DATA` node fills any
numeric gap at `start`'s level before the current node (announced to
the BST and to the buffer), then, if the current node is non-`DUMMY`,
on `start`'s level and has clock `≤ clk`, it is clocked, a `remove` of
its current `ldoc_length` is issued, it is re-typed, and a re-`insert`
at the same `ldoc_start` is issued. -/
def fillStep (start : Pos) (clk : Int) (typ : NodeType)
    (acc : Except Err (St × OpBuf × Int × List Nat)) (nodeId : Nat) :
    Except Err (St × OpBuf × Int × List Nat) :=
  match acc with
  | .error e => .error e
  | .ok (s, ob, llp, filled) =>
    let lvl := levels start
    let startInt := atomAt start lvl
    let n := getN s nodeId
    let space := atomAt n.logoot_start lvl - llp
    let step1 : Except Err (St × OpBuf × Option Nat) :=
      if space > 0 then
        let nstart := setAtom start lvl llp
        let offs := llp - startInt
        let node : Node :=
          ⟨0, nstart, space, typ, clk, n.ldoc_start, .docStart, .docEnd, []⟩
        let p := mkNode s node
        let sB := bstAdd p.1 p.2
        match obInsert sB ob p.2 (getN sB p.2).ldoc_start offs
            (getN sB p.2).ldoc_length with
        | .error e => .error e
        | .ok (sC, obC) => .ok (sC, obC, some p.2)
      else .ok (s, ob, none)
    match step1 with
    | .error e => .error e
    | .ok (s1, ob1, created) =>
      let n1 := getN s1 nodeId
      let step2 : Except Err (St × OpBuf) :=
        if n1.type ≠ .dummy ∧ levels n1.logoot_start = lvl ∧ n1.clk ≤ clk then
          let offs := atomAt n1.logoot_start lvl - startInt
          let sA := upd s1 nodeId (fun m => { m with clk := clk })
          let nA := getN sA nodeId
          match obRemove sA ob1 nodeId nA.ldoc_start nA.ldoc_length with
          | .error e => .error e
          | .ok (sB, obB) =>
            let sC := upd sB nodeId (fun m => { m with type := typ })
            let nC := getN sC nodeId
            obInsert sC obB nodeId nC.ldoc_start offs nC.ldoc_length
        else .ok (s1, ob1)
      match step2 with
      | .error e => .error e
      | .ok (s2, ob2) =>
        let nEnd := getN s2 nodeId
        let llp' := atomAt (offsetLowest nEnd.logoot_start nEnd.length) lvl
        let filled' := filled
          ++ (match created with | some j => [j] | none => [])
          ++ (if (getN s2 nodeId).type ≠ .dummy then [nodeId] else [])
        .ok (s2, ob2, llp', filled')

/-- Source `fillSkipRanges` (lines 241-308): walk the skip ranges left
to right, returning the ordered list of touched non-`DUMMY` nodes. -/
def fillSkipRanges (start : Pos) (clk : Int) (typ : NodeType)
    (skip : List Nat) (s : St) (ob : OpBuf) :
    Except Err (St × OpBuf × List Nat) :=
  match skip.foldl (fillStep start clk typ)
      (.ok (s, ob, atomAt start (levels start), [])) with
  | .error e => .error e
  | .ok (s', ob', _, filled) => .ok (s', ob', filled)

/-! Section: `linkFilledSkipRanges` (source lines 310-336) -/

/-- Source `linkFilledSkipRanges`: chain the anchors of the freshly filled
`DATA` nodes that live on the anchor level: each reduces its left
anchor to the previous one's end (or the outer `left`), each previous
one reduces its right anchor to the current's start, and the last
reduces its right anchor to the outer `right`. -/
def linkFilled (s : St) (left right : Option Pos) (filled : List Nat) : St :=
  let alvl :=
    match left, right with
    | none, none => 0
    | some l, none => levels l
    | none, some r => levels r
    | some l, some r => min (levels l) (levels r)
  let flt := filled.filter (fun i =>
    decide (levels (getN s i).logoot_start = alvl ∧ (getN s i).type = .data))
  let step := fun (acc : St × Option Pos × Option Nat) (i : Nat) =>
    let st := acc.1
    let lla := acc.2.1
    let lastN := acc.2.2
    let st1 :=
      match lla with
      | some a => if levels a = alvl then upd st i (fun m => m.reduceLeft a) else st
      | none => st
    let st2 :=
      match lastN with
      | some j => upd st1 j (fun m => m.reduceRight (getN st1 i).logoot_start)
      | none => st1
    let ni := getN st2 i
    (st2, some (offsetLowest ni.logoot_start ni.length), some i)
  let r := flt.foldl step (s, left, none)
  match r.2.2, right with
  | some j, some rp => upd r.1 j (fun m => m.reduceRight rp)
  | _, _ => r.1

/-! Section: Conflict propagation -/

/-- Modelled from the spec: the conflict rule.  For `last` left of
`self`: `last.true_right` is `DocEnd` or beyond `self.logoot_start`;
for `last` right of `self`: `last.true_left` is `DocStart` or below
`self.logoot_end`. -/
def conflictsWith (s : St) (last self : Nat) : Bool :=
  let ln := getN s last
  let sn := getN s self
  if posLt ln.logoot_start sn.logoot_start then
    match ln.true_right with
    | .docEnd => true
    | .pos p => posGt p sn.logoot_start
    | .docStart => false
  else
    match ln.true_left with
    | .docStart => true
    | .pos p => posLt p (offsetLowest sn.logoot_start sn.length)
    | .docEnd => false

/-- Modelled from the spec: `updateNeighborConflicts(last)`: conflicts
are materialized by adding each node to the other's `conflict_with`
set, each side judged by the other node's anchor rule; the boolean
result is `false` exactly when no conflict exists and propagation can
be cut off. -/
def updateNeighborConflicts (s : St) (self last : Nat) : St × Bool :=
  let c1 := conflictsWith s last self
  let c2 := conflictsWith s self last
  let s1 :=
    if c1 then
      upd s self (fun m => { m with conflict_with := cwAdd m.conflict_with last })
    else s
  let s2 :=
    if c2 then
      upd s1 last (fun m => { m with conflict_with := cwAdd m.conflict_with self })
    else s1
  (s2, c1 || c2)

/-- One direction of `fillRangeConflicts` (source lines 338-355): fold
over the range updating each node against the previous one, stopping
at the first non-conflict. -/
def frcGo (s : St) (last : Option Nat) : List Nat → St
  | [] => s
  | i :: is =>
    match last with
    | none => frcGo s (some i) is
    | some l =>
      let r := updateNeighborConflicts s i l
      if r.2 then frcGo r.1 (some i) is else r.1

/-- Source `fillRangeConflicts`: a forward sweep seeded with `nl_lesser`, then
a backward sweep seeded with `nl_greater`. -/
def fillRangeConflicts (s : St) (nlL nlG : Option Nat) (range : List Nat) :
    St :=
  frcGo (frcGo s nlL range) nlG range.reverse

/-! Section: `insertLogoot` (source lines 492-645) -/

/-- The two scan-set blocks of `insertLogoot` (source lines 541-565):
for every node of the neighbour's scan-set whose `true_left` equals the
boundary filled node's `logoot_end`, reduce that filled node's right
anchor to the scan node's `logoot_start`. -/
def scanBlock (s : St) (nl : Option Nat) (fn : Option Nat) : St :=
  match nl, fn with
  | some nlid, some fid =>
    (scanSetOf s nlid).foldl (fun st j =>
      let n := getN st j
      let f := getN st fid
      if aIsPos n.true_left (offsetLowest f.logoot_start f.length) then
        upd st fid (fun m => m.reduceRight n.logoot_start)
      else st) s
  | _, _ => s

/-- The `nc_left` walk of `insertLogoot` (source lines 569-581):
right to left, add the first filled node to each node's
`conflict_with`, stopping after a node whose `logoot_end` is at or
below the filled range's tightened `true_left`. -/
def ncLeftWalk (s : St) (nc_left : List Nat) (f0 : Option Nat) : St :=
  match f0 with
  | none => s
  | some fid =>
    let stoppos :=
      match (getN s fid).true_left with
      | .pos p => some p
      | _ => none
    let rec go (st : St) : List Nat → St
      | [] => st
      | i :: is =>
        let st' := upd st i (fun m =>
          { m with conflict_with := cwAdd m.conflict_with fid })
        match stoppos with
        | some sp =>
          if posLteq (offsetLowest (getN st' i).logoot_start
              (getN st' i).length) sp then st'
          else go st' is
        | none => go st' is
    go s nc_left.reverse

/-- The `nc_right` walk of `insertLogoot` (source lines 582-596): left
to right, stop before a node whose `logoot_start` is at or beyond the
tightened `true_right`; otherwise add the last filled node to the
node's `conflict_with`. -/
def ncRightWalk (s : St) (nc_right : List Nat) (fL : Option Nat) : St :=
  match fL with
  | none => s
  | some fid =>
    let stoppos :=
      match (getN s fid).true_right with
      | .pos p => some p
      | _ => none
    let rec go (st : St) : List Nat → St
      | [] => st
      | i :: is =>
        match stoppos with
        | some sp =>
          if posGteq (getN st i).logoot_start sp then st
          else go (upd st i (fun m =>
            { m with conflict_with := cwAdd m.conflict_with fid })) is
        | none =>
          go (upd st i (fun m =>
            { m with conflict_with := cwAdd m.conflict_with fid })) is
    go s nc_right

/-- The left outer-anchor adjustment of `insertLogoot` (source lines
600-615): reduce `anchor_left`'s right anchor to `start`, then walk
forward from the first filled node deleting `anchor_left` from each
`conflict_with` until a node no longer has it. -/
def alAdjust (s : St) (al : Option Nat) (f0 : Option Nat) (start : Pos) :
    St :=
  match al with
  | none => s
  | some aid =>
    let s1 := upd s aid (fun m => m.reduceRight start)
    let rec go (st : St) (cur : Option Nat) : Nat → St
      | 0 => st
      | fuel + 1 =>
        match cur with
        | none => st
        | some c =>
          if (getN st c).conflict_with.contains aid then
            go (upd st c (fun m =>
              { m with conflict_with := cwDel m.conflict_with aid }))
              (succId st c) fuel
          else st
    go s1 f0 (s1.order.length + 1)

/-- The right outer-anchor adjustment (source lines 616-631): reduce
`anchor_right`'s left anchor to `end`, then walk backward from the last
filled node deleting `anchor_right` from each `conflict_with`. -/
def arAdjust (s : St) (ar : Option Nat) (fL : Option Nat) (endp : Pos) :
    St :=
  match ar with
  | none => s
  | some aid =>
    let s1 := upd s aid (fun m => m.reduceLeft endp)
    let rec go (st : St) (cur : Option Nat) : Nat → St
      | 0 => st
      | fuel + 1 =>
        match cur with
        | none => st
        | some c =>
          if (getN st c).conflict_with.contains aid then
            go (upd st c (fun m =>
              { m with conflict_with := cwDel m.conflict_with aid }))
              (predId st c) fuel
          else st
    go s1 fL (s1.order.length + 1)

/-- Source `ListDocumentModel.insertLogoot` (lines 492-645). -/
def insertLogoot (s : St) (br : Branch) (left right : Option Pos)
    (length clk : Int) : Except Err (St × List Op) :=
  let start := newBetween br length left right
  let endp := offsetLowest start length
  let cr := constructSkipRanges s left right start endp
  let s1 := cr.1
  let csr := cr.2
  let ob0 : OpBuf := ⟨[], none, length⟩
  let ob1 :=
    match csr.skip_ranges.getLast? with
    | some lastid =>
      if (getN s1 lastid).type = .dummy then { ob0 with dummy := some lastid }
      else ob0
    | none => ob0
  match fillSkipRanges start clk .data csr.skip_ranges s1 ob1 with
  | .error e => .error e
  | .ok (s2, ob2, filled) =>
    let s3 := linkFilled s2 left right filled
    let nlL :=
      match csr.nc_left.getLast? with
      | some x => some x
      | none => csr.anchor_left
    let nlG :=
      match csr.nc_right.head? with
      | some x => some x
      | none => csr.anchor_right
    let s4 := scanBlock s3 nlL filled.head?
    let s5 := scanBlock s4 nlG filled.getLast?
    let s6 := fillRangeConflicts s5 nlL nlG filled
    let s7 := ncLeftWalk s6 csr.nc_left filled.head?
    let s8 := ncRightWalk s7 csr.nc_right filled.getLast?
    let s9 := alAdjust s8 csr.anchor_left filled.head? start
    let s10 := arAdjust s9 csr.anchor_right filled.getLast? endp
    let range :=
      (match nlL with | some x => [x] | none => [])
      ++ filled
      ++ (match nlG with | some x => [x] | none => [])
    let s11 := praPass s10 range false
    let s12 := praPass s11 range true
    .ok (s12, ob2.ops)

/-! Section: `selfTest` (source lines 798-858) and observations -/

/-- The conflict expected between `node` and another node `cfl` by
`selfTest` (source lines 822-853). -/
def expectedConflict (s : St) (node cfl : Nat) : Bool :=
  let n := getN s node
  let c := getN s cfl
  if posLt c.logoot_start n.logoot_start then
    match c.true_right with
    | .docEnd => true
    | .pos p => posGt p n.logoot_start
    | .docStart => false
  else
    match c.true_left with
    | .docStart => true
    | .pos p => posLt p (offsetLowest n.logoot_start n.length)
    | .docEnd => false

/-- Source `ListDocumentModel.selfTest` as a boolean: contiguous `ldoc`
starting at 0, non-decreasing `logoot_start`, positive lengths, and
`conflict_with` matching the anchor rule for every ordered pair. -/
def selfTestOk (s : St) : Bool :=
  let ids := s.order
  let rec go (lastLdoc : Int) (lastPos : Option Pos) : List Nat → Bool
    | [] => true
    | i :: is =>
      let n := getN s i
      (decide (n.ldoc_start = lastLdoc)) &&
      (match lastPos with
       | some lp => !(posGt lp n.logoot_start)
       | none => true) &&
      (decide (1 ≤ n.length)) &&
      (ids.all (fun j =>
        j = i || (n.conflict_with.contains j = expectedConflict s i j))) &&
      go n.ldoc_end (some n.logoot_start) is
  go 0 none ids

/-- The observable content of a node: everything the claims compare
node-wise, with `conflict_with` rendered as the sorted list of the
referenced nodes' `logoot_start` positions (ids are replica-local). -/
structure Obs where
  start : Pos
  length : Int
  type : NodeType
  clk : Int
  value : Int
  la : Anchor
  ra : Anchor
  cw : List Pos
deriving DecidableEq, Repr

/-- Insertion into a position list sorted by `posCmp`. -/
def insPos (p : Pos) : List Pos → List Pos
  | [] => [p]
  | q :: qs => if posLt p q then p :: q :: qs else q :: insPos p qs

def sortPos (l : List Pos) : List Pos := l.foldr insPos []

def obsOf (s : St) (i : Nat) : Obs :=
  let n := getN s i
  ⟨n.logoot_start, n.length, n.type, n.clk, n.value, n.left_anchor,
   n.right_anchor,
   sortPos (n.conflict_with.map (fun j => (getN s j).logoot_start))⟩

/-- The node-wise observable state of a document (in BST order). -/
def docObs (s : St) : List Obs := s.order.map (obsOf s)

/-- A logical operation, for replaying delivery orders. -/
inductive LogOp where
  | ins (br : Branch) (left right : Option Pos) (length clk : Int)
  | rem (start : Pos) (length clk : Int)
deriving DecidableEq, Repr

/-- Apply one logical operation (errors abort the replay). -/
def applyOp (s : St) : LogOp → Except Err St
  | .ins br l r len clk =>
    match insertLogoot s br l r len clk with
    | .ok (s', _) => .ok s'
    | .error e => .error e
  | .rem st len clk =>
    match removeLogoot s st len clk with
    | .ok (s', _) => .ok s'
    | .error e => .error e

/-- Apply a sequence of logical operations from the empty document. -/
def applyOps (ops : List LogOp) : Except Err St :=
  ops.foldlM applyOp emptySt


/-! Section: Concrete replay states (computed by the model, used as literal intermediates) -/

def litO : St :=
{ store := [(0,
             { id := 0,
               logoot_start := [{ i := 5, b := 0 }],
               length := 0,
               type := Logootish.NodeType.dummy,
               clk := 0,
               value := 5,
               left_anchor := Logootish.Anchor.pos [{ i := 5, b := 0 }],
               right_anchor := Logootish.Anchor.pos [{ i := 5, b := 0 }],
               conflict_with := [] }),
            (1,
             { id := 1,
               logoot_start := [{ i := 0, b := 0 }],
               length := 5,
               type := Logootish.NodeType.data,
               clk := 0,
               value := 0,
               left_anchor := Logootish.Anchor.docStart,
               right_anchor := Logootish.Anchor.docEnd,
               conflict_with := [] })],
  order := [1],
  next := 2 }

def litP : St :=
{ store := [(0,
             { id := 0,
               logoot_start := [{ i := 5, b := 0 }],
               length := 0,
               type := Logootish.NodeType.dummy,
               clk := 0,
               value := 5,
               left_anchor := Logootish.Anchor.pos [{ i := 5, b := 0 }],
               right_anchor := Logootish.Anchor.pos [{ i := 5, b := 0 }],
               conflict_with := [] }),
            (1,
             { id := 1,
               logoot_start := [{ i := 0, b := 0 }],
               length := 2,
               type := Logootish.NodeType.data,
               clk := 0,
               value := 0,
               left_anchor := Logootish.Anchor.docStart,
               right_anchor := Logootish.Anchor.pos [{ i := 2, b := 0 }],
               conflict_with := [] }),
            (2,
             { id := 2,
               logoot_start := [{ i := 2, b := 0 }],
               length := 1,
               type := Logootish.NodeType.data,
               clk := 0,
               value := 2,
               left_anchor := Logootish.Anchor.pos [{ i := 2, b := 0 }],
               right_anchor := Logootish.Anchor.pos [{ i := 3, b := 0 }],
               conflict_with := [5] }),
            (3,
             { id := 3,
               logoot_start := [{ i := 3, b := 0 }],
               length := 2,
               type := Logootish.NodeType.data,
               clk := 0,
               value := 5,
               left_anchor := Logootish.Anchor.pos [{ i := 3, b := 0 }],
               right_anchor := Logootish.Anchor.docEnd,
               conflict_with := [5] }),
            (4,
             { id := 4,
               logoot_start := [{ i := 2, b := 0 }, { i := 2, b := 1 }],
               length := 0,
               type := Logootish.NodeType.dummy,
               clk := 0,
               value := 5,
               left_anchor := Logootish.Anchor.pos [{ i := 2, b := 0 }, { i := 2, b := 1 }],
               right_anchor := Logootish.Anchor.pos [{ i := 2, b := 0 }, { i := 2, b := 1 }],
               conflict_with := [] }),
            (5,
             { id := 5,
               logoot_start := [{ i := 2, b := 0 }, { i := 0, b := 1 }],
               length := 2,
               type := Logootish.NodeType.data,
               clk := 0,
               value := 3,
               left_anchor := Logootish.Anchor.docStart,
               right_anchor := Logootish.Anchor.docEnd,
               conflict_with := [2] })],
  order := [1, 2, 5, 3],
  next := 6 }

def litAX : St :=
{ store := [(0,
             { id := 0,
               logoot_start := [{ i := 5, b := 0 }],
               length := 0,
               type := Logootish.NodeType.dummy,
               clk := 0,
               value := 5,
               left_anchor := Logootish.Anchor.pos [{ i := 5, b := 0 }],
               right_anchor := Logootish.Anchor.pos [{ i := 5, b := 0 }],
               conflict_with := [] }),
            (1,
             { id := 1,
               logoot_start := [{ i := 0, b := 0 }],
               length := 2,
               type := Logootish.NodeType.data,
               clk := 0,
               value := 0,
               left_anchor := Logootish.Anchor.docStart,
               right_anchor := Logootish.Anchor.pos [{ i := 2, b := 0 }],
               conflict_with := [] }),
            (2,
             { id := 2,
               logoot_start := [{ i := 2, b := 0 }],
               length := 1,
               type := Logootish.NodeType.data,
               clk := 0,
               value := 2,
               left_anchor := Logootish.Anchor.pos [{ i := 2, b := 0 }],
               right_anchor := Logootish.Anchor.pos [{ i := 3, b := 0 }],
               conflict_with := [5] }),
            (3,
             { id := 3,
               logoot_start := [{ i := 3, b := 0 }],
               length := 2,
               type := Logootish.NodeType.data,
               clk := 0,
               value := 4,
               left_anchor := Logootish.Anchor.pos [{ i := 3, b := 0 }],
               right_anchor := Logootish.Anchor.docEnd,
               conflict_with := [5] }),
            (4,
             { id := 4,
               logoot_start := [{ i := 2, b := 0 }, { i := 1, b := 1 }],
               length := 0,
               type := Logootish.NodeType.dummy,
               clk := 0,
               value := 4,
               left_anchor := Logootish.Anchor.pos [{ i := 2, b := 0 }, { i := 1, b := 1 }],
               right_anchor := Logootish.Anchor.pos [{ i := 2, b := 0 }, { i := 1, b := 1 }],
               conflict_with := [] }),
            (5,
             { id := 5,
               logoot_start := [{ i := 2, b := 0 }, { i := 0, b := 1 }],
               length := 1,
               type := Logootish.NodeType.data,
               clk := 0,
               value := 3,
               left_anchor := Logootish.Anchor.docStart,
               right_anchor := Logootish.Anchor.docEnd,
               conflict_with := [2] })],
  order := [1, 2, 5, 3],
  next := 6 }

def litAXY : St :=
{ store := [(0,
             { id := 0,
               logoot_start := [{ i := 5, b := 0 }],
               length := 0,
               type := Logootish.NodeType.dummy,
               clk := 0,
               value := 5,
               left_anchor := Logootish.Anchor.pos [{ i := 5, b := 0 }],
               right_anchor := Logootish.Anchor.pos [{ i := 5, b := 0 }],
               conflict_with := [] }),
            (1,
             { id := 1,
               logoot_start := [{ i := 0, b := 0 }],
               length := 2,
               type := Logootish.NodeType.data,
               clk := 0,
               value := 0,
               left_anchor := Logootish.Anchor.docStart,
               right_anchor := Logootish.Anchor.pos [{ i := 2, b := 0 }],
               conflict_with := [] }),
            (2,
             { id := 2,
               logoot_start := [{ i := 2, b := 0 }],
               length := 1,
               type := Logootish.NodeType.data,
               clk := 0,
               value := 2,
               left_anchor := Logootish.Anchor.pos [{ i := 2, b := 0 }],
               right_anchor := Logootish.Anchor.pos [{ i := 3, b := 0 }],
               conflict_with := [5, 7] }),
            (3,
             { id := 3,
               logoot_start := [{ i := 3, b := 0 }],
               length := 2,
               type := Logootish.NodeType.data,
               clk := 0,
               value := 5,
               left_anchor := Logootish.Anchor.pos [{ i := 3, b := 0 }],
               right_anchor := Logootish.Anchor.docEnd,
               conflict_with := [5, 7] }),
            (4,
             { id := 4,
               logoot_start := [{ i := 2, b := 0 }, { i := 1, b := 1 }],
               length := 0,
               type := Logootish.NodeType.dummy,
               clk := 0,
               value := 4,
               left_anchor := Logootish.Anchor.pos [{ i := 2, b := 0 }, { i := 1, b := 1 }],
               right_anchor := Logootish.Anchor.pos [{ i := 2, b := 0 }, { i := 1, b := 1 }],
               conflict_with := [] }),
            (5,
             { id := 5,
               logoot_start := [{ i := 2, b := 0 }, { i := 0, b := 1 }],
               length := 1,
               type := Logootish.NodeType.data,
               clk := 0,
               value := 3,
               left_anchor := Logootish.Anchor.docStart,
               right_anchor := Logootish.Anchor.docEnd,
               conflict_with := [2, 7] }),
            (6,
             { id := 6,
               logoot_start := [{ i := 2, b := 0 }, { i := 1, b := 2 }],
               length := 0,
               type := Logootish.NodeType.dummy,
               clk := 0,
               value := 5,
               left_anchor := Logootish.Anchor.pos [{ i := 2, b := 0 }, { i := 1, b := 2 }],
               right_anchor := Logootish.Anchor.pos [{ i := 2, b := 0 }, { i := 1, b := 2 }],
               conflict_with := [] }),
            (7,
             { id := 7,
               logoot_start := [{ i := 2, b := 0 }, { i := 0, b := 2 }],
               length := 1,
               type := Logootish.NodeType.data,
               clk := 0,
               value := 4,
               left_anchor := Logootish.Anchor.docStart,
               right_anchor := Logootish.Anchor.docEnd,
               conflict_with := [5] })],
  order := [1, 2, 5, 7, 3],
  next := 8 }

def litBY : St :=
{ store := [(0,
             { id := 0,
               logoot_start := [{ i := 5, b := 0 }],
               length := 0,
               type := Logootish.NodeType.dummy,
               clk := 0,
               value := 5,
               left_anchor := Logootish.Anchor.pos [{ i := 5, b := 0 }],
               right_anchor := Logootish.Anchor.pos [{ i := 5, b := 0 }],
               conflict_with := [] }),
            (1,
             { id := 1,
               logoot_start := [{ i := 0, b := 0 }],
               length := 2,
               type := Logootish.NodeType.data,
               clk := 0,
               value := 0,
               left_anchor := Logootish.Anchor.docStart,
               right_anchor := Logootish.Anchor.pos [{ i := 2, b := 0 }],
               conflict_with := [] }),
            (2,
             { id := 2,
               logoot_start := [{ i := 2, b := 0 }],
               length := 1,
               type := Logootish.NodeType.data,
               clk := 0,
               value := 2,
               left_anchor := Logootish.Anchor.pos [{ i := 2, b := 0 }],
               right_anchor := Logootish.Anchor.pos [{ i := 3, b := 0 }],
               conflict_with := [5] }),
            (3,
             { id := 3,
               logoot_start := [{ i := 3, b := 0 }],
               length := 2,
               type := Logootish.NodeType.data,
               clk := 0,
               value := 4,
               left_anchor := Logootish.Anchor.pos [{ i := 3, b := 0 }],
               right_anchor := Logootish.Anchor.docEnd,
               conflict_with := [5] }),
            (4,
             { id := 4,
               logoot_start := [{ i := 2, b := 0 }, { i := 1, b := 2 }],
               length := 0,
               type := Logootish.NodeType.dummy,
               clk := 0,
               value := 4,
               left_anchor := Logootish.Anchor.pos [{ i := 2, b := 0 }, { i := 1, b := 2 }],
               right_anchor := Logootish.Anchor.pos [{ i := 2, b := 0 }, { i := 1, b := 2 }],
               conflict_with := [] }),
            (5,
             { id := 5,
               logoot_start := [{ i := 2, b := 0 }, { i := 0, b := 2 }],
               length := 1,
               type := Logootish.NodeType.data,
               clk := 0,
               value := 3,
               left_anchor := Logootish.Anchor.docStart,
               right_anchor := Logootish.Anchor.docEnd,
               conflict_with := [2] })],
  order := [1, 2, 5, 3],
  next := 6 }

def litBYX : St :=
{ store := [(0,
             { id := 0,
               logoot_start := [{ i := 5, b := 0 }],
               length := 0,
               type := Logootish.NodeType.dummy,
               clk := 0,
               value := 5,
               left_anchor := Logootish.Anchor.pos [{ i := 5, b := 0 }],
               right_anchor := Logootish.Anchor.pos [{ i := 5, b := 0 }],
               conflict_with := [] }),
            (1,
             { id := 1,
               logoot_start := [{ i := 0, b := 0 }],
               length := 2,
               type := Logootish.NodeType.data,
               clk := 0,
               value := 0,
               left_anchor := Logootish.Anchor.docStart,
               right_anchor := Logootish.Anchor.pos [{ i := 2, b := 0 }],
               conflict_with := [] }),
            (2,
             { id := 2,
               logoot_start := [{ i := 2, b := 0 }],
               length := 1,
               type := Logootish.NodeType.data,
               clk := 0,
               value := 2,
               left_anchor := Logootish.Anchor.pos [{ i := 2, b := 0 }],
               right_anchor := Logootish.Anchor.pos [{ i := 3, b := 0 }],
               conflict_with := [5] }),
            (3,
             { id := 3,
               logoot_start := [{ i := 3, b := 0 }],
               length := 2,
               type := Logootish.NodeType.data,
               clk := 0,
               value := 4,
               left_anchor := Logootish.Anchor.pos [{ i := 3, b := 0 }],
               right_anchor := Logootish.Anchor.docEnd,
               conflict_with := [5] }),
            (4,
             { id := 4,
               logoot_start := [{ i := 2, b := 0 }, { i := 1, b := 2 }],
               length := 0,
               type := Logootish.NodeType.dummy,
               clk := 0,
               value := 4,
               left_anchor := Logootish.Anchor.pos [{ i := 2, b := 0 }, { i := 1, b := 2 }],
               right_anchor := Logootish.Anchor.pos [{ i := 2, b := 0 }, { i := 1, b := 2 }],
               conflict_with := [] }),
            (5,
             { id := 5,
               logoot_start := [{ i := 2, b := 0 }, { i := 0, b := 2 }],
               length := 1,
               type := Logootish.NodeType.data,
               clk := 0,
               value := 3,
               left_anchor := Logootish.Anchor.docStart,
               right_anchor := Logootish.Anchor.docEnd,
               conflict_with := [2] })],
  order := [1, 2, 5, 3],
  next := 6 }

def litR : St :=
{ store := [(0,
             { id := 0,
               logoot_start := [{ i := 5, b := 0 }],
               length := 0,
               type := Logootish.NodeType.dummy,
               clk := 0,
               value := 5,
               left_anchor := Logootish.Anchor.pos [{ i := 5, b := 0 }],
               right_anchor := Logootish.Anchor.pos [{ i := 5, b := 0 }],
               conflict_with := [] }),
            (1,
             { id := 1,
               logoot_start := [{ i := 0, b := 0 }],
               length := 1,
               type := Logootish.NodeType.data,
               clk := 0,
               value := 0,
               left_anchor := Logootish.Anchor.docStart,
               right_anchor := Logootish.Anchor.pos [{ i := 3, b := 0 }],
               conflict_with := [] }),
            (2,
             { id := 2,
               logoot_start := [{ i := 1, b := 0 }],
               length := 2,
               type := Logootish.NodeType.removal,
               clk := 1,
               value := 1,
               left_anchor := Logootish.Anchor.pos [{ i := 1, b := 0 }],
               right_anchor := Logootish.Anchor.pos [{ i := 3, b := 0 }],
               conflict_with := [1, 3] }),
            (3,
             { id := 3,
               logoot_start := [{ i := 3, b := 0 }],
               length := 2,
               type := Logootish.NodeType.data,
               clk := 0,
               value := 1,
               left_anchor := Logootish.Anchor.pos [{ i := 1, b := 0 }],
               right_anchor := Logootish.Anchor.docEnd,
               conflict_with := [] })],
  order := [1, 2, 3],
  next := 4 }

def litRX : St :=
{ store := [(0,
             { id := 0,
               logoot_start := [{ i := 5, b := 0 }],
               length := 0,
               type := Logootish.NodeType.dummy,
               clk := 0,
               value := 5,
               left_anchor := Logootish.Anchor.pos [{ i := 5, b := 0 }],
               right_anchor := Logootish.Anchor.pos [{ i := 5, b := 0 }],
               conflict_with := [] }),
            (1,
             { id := 1,
               logoot_start := [{ i := 0, b := 0 }],
               length := 1,
               type := Logootish.NodeType.data,
               clk := 0,
               value := 0,
               left_anchor := Logootish.Anchor.docStart,
               right_anchor := Logootish.Anchor.pos [{ i := 3, b := 0 }],
               conflict_with := [] }),
            (2,
             { id := 2,
               logoot_start := [{ i := 1, b := 0 }],
               length := 1,
               type := Logootish.NodeType.removal,
               clk := 1,
               value := 1,
               left_anchor := Logootish.Anchor.pos [{ i := 1, b := 0 }],
               right_anchor := Logootish.Anchor.pos [{ i := 2, b := 0 }],
               conflict_with := [1] }),
            (3,
             { id := 3,
               logoot_start := [{ i := 3, b := 0 }],
               length := 2,
               type := Logootish.NodeType.data,
               clk := 0,
               value := 2,
               left_anchor := Logootish.Anchor.pos [{ i := 2, b := 0 }, { i := 1, b := 1 }],
               right_anchor := Logootish.Anchor.docEnd,
               conflict_with := [6] }),
            (4,
             { id := 4,
               logoot_start := [{ i := 2, b := 0 }],
               length := 1,
               type := Logootish.NodeType.removal,
               clk := 1,
               value := 1,
               left_anchor := Logootish.Anchor.pos [{ i := 2, b := 0 }],
               right_anchor := Logootish.Anchor.pos [{ i := 3, b := 0 }],
               conflict_with := [1, 4, 6] }),
            (5,
             { id := 5,
               logoot_start := [{ i := 2, b := 0 }, { i := 1, b := 1 }],
               length := 0,
               type := Logootish.NodeType.dummy,
               clk := 0,
               value := 2,
               left_anchor := Logootish.Anchor.pos [{ i := 2, b := 0 }, { i := 1, b := 1 }],
               right_anchor := Logootish.Anchor.pos [{ i := 2, b := 0 }, { i := 1, b := 1 }],
               conflict_with := [] }),
            (6,
             { id := 6,
               logoot_start := [{ i := 2, b := 0 }, { i := 0, b := 1 }],
               length := 1,
               type := Logootish.NodeType.data,
               clk := 0,
               value := 1,
               left_anchor := Logootish.Anchor.docStart,
               right_anchor := Logootish.Anchor.docEnd,
               conflict_with := [4] })],
  order := [1, 2, 4, 6, 3],
  next := 7 }

def litRXX : St :=
{ store := [(0,
             { id := 0,
               logoot_start := [{ i := 5, b := 0 }],
               length := 0,
               type := Logootish.NodeType.dummy,
               clk := 0,
               value := 5,
               left_anchor := Logootish.Anchor.pos [{ i := 5, b := 0 }],
               right_anchor := Logootish.Anchor.pos [{ i := 5, b := 0 }],
               conflict_with := [] }),
            (1,
             { id := 1,
               logoot_start := [{ i := 0, b := 0 }],
               length := 1,
               type := Logootish.NodeType.data,
               clk := 0,
               value := 0,
               left_anchor := Logootish.Anchor.docStart,
               right_anchor := Logootish.Anchor.pos [{ i := 3, b := 0 }],
               conflict_with := [] }),
            (2,
             { id := 2,
               logoot_start := [{ i := 1, b := 0 }],
               length := 1,
               type := Logootish.NodeType.removal,
               clk := 1,
               value := 1,
               left_anchor := Logootish.Anchor.pos [{ i := 1, b := 0 }],
               right_anchor := Logootish.Anchor.pos [{ i := 2, b := 0 }],
               conflict_with := [1] }),
            (3,
             { id := 3,
               logoot_start := [{ i := 3, b := 0 }],
               length := 2,
               type := Logootish.NodeType.data,
               clk := 0,
               value := 2,
               left_anchor := Logootish.Anchor.pos [{ i := 2, b := 0 }, { i := 1, b := 1 }],
               right_anchor := Logootish.Anchor.docEnd,
               conflict_with := [6] }),
            (4,
             { id := 4,
               logoot_start := [{ i := 2, b := 0 }],
               length := 1,
               type := Logootish.NodeType.removal,
               clk := 1,
               value := 1,
               left_anchor := Logootish.Anchor.pos [{ i := 2, b := 0 }],
               right_anchor := Logootish.Anchor.pos [{ i := 3, b := 0 }],
               conflict_with := [1, 4, 6] }),
            (5,
             { id := 5,
               logoot_start := [{ i := 2, b := 0 }, { i := 1, b := 1 }],
               length := 0,
               type := Logootish.NodeType.dummy,
               clk := 0,
               value := 2,
               left_anchor := Logootish.Anchor.pos [{ i := 2, b := 0 }, { i := 1, b := 1 }],
               right_anchor := Logootish.Anchor.pos [{ i := 2, b := 0 }, { i := 1, b := 1 }],
               conflict_with := [] }),
            (6,
             { id := 6,
               logoot_start := [{ i := 2, b := 0 }, { i := 0, b := 1 }],
               length := 1,
               type := Logootish.NodeType.data,
               clk := 0,
               value := 1,
               left_anchor := Logootish.Anchor.docStart,
               right_anchor := Logootish.Anchor.pos [{ i := 3, b := 0 }],
               conflict_with := [4] })],
  order := [1, 2, 4, 6, 3],
  next := 7 }

def litC6a : St :=
{ store := [(0,
             { id := 0,
               logoot_start := [{ i := 1, b := 0 }],
               length := 0,
               type := Logootish.NodeType.dummy,
               clk := 0,
               value := 1,
               left_anchor := Logootish.Anchor.pos [{ i := 1, b := 0 }],
               right_anchor := Logootish.Anchor.pos [{ i := 1, b := 0 }],
               conflict_with := [] }),
            (1,
             { id := 1,
               logoot_start := [{ i := 0, b := 0 }],
               length := 1,
               type := Logootish.NodeType.data,
               clk := -2,
               value := 0,
               left_anchor := Logootish.Anchor.docStart,
               right_anchor := Logootish.Anchor.docEnd,
               conflict_with := [] })],
  order := [1],
  next := 2 }

def litC6 : St :=
{ store := [(0,
             { id := 0,
               logoot_start := [{ i := 1, b := 0 }],
               length := 0,
               type := Logootish.NodeType.dummy,
               clk := 0,
               value := 1,
               left_anchor := Logootish.Anchor.pos [{ i := 1, b := 0 }],
               right_anchor := Logootish.Anchor.pos [{ i := 1, b := 0 }],
               conflict_with := [] }),
            (1,
             { id := 1,
               logoot_start := [{ i := 0, b := 0 }],
               length := 1,
               type := Logootish.NodeType.removal,
               clk := -2,
               value := 0,
               left_anchor := Logootish.Anchor.docStart,
               right_anchor := Logootish.Anchor.docEnd,
               conflict_with := [] })],
  order := [1],
  next := 2 }

/-- The four logical operations of the concrete scenarios: a branch-0
fill of five atoms, a branch-1 nested insert of two atoms between atoms
2 and 3, a removal of atoms 1-2 at clock 1, and two concurrent
single-atom sibling inserts on branches 1 and 2. -/
def opFill : LogOp := .ins 0 none none 5 0

def opNest : LogOp := .ins 1 (some [⟨2, 0⟩]) (some [⟨3, 0⟩]) 2 0

def opRm : LogOp := .rem [⟨1, 0⟩] 2 1

def opX : LogOp := .ins 1 (some [⟨2, 0⟩]) (some [⟨3, 0⟩]) 1 0

def opY : LogOp := .ins 2 (some [⟨2, 0⟩]) (some [⟨3, 0⟩]) 1 0

theorem exceptBindOk {α β : Type} (x : α) (g : α → Except Err β) :
    ((Except.ok x : Except Err α) >>= g) = g x := rfl

theorem stepO : applyOp emptySt opFill = .ok litO := by decide

theorem stepP : applyOp litO opNest = .ok litP := by decide

theorem stepAX : applyOp litO opX = .ok litAX := by decide

theorem stepAXY : applyOp litAX opY = .ok litAXY := by decide

theorem stepBY : applyOp litO opY = .ok litBY := by decide

theorem stepBYX : applyOp litBY opX = .ok litBYX := by decide

theorem stepR : applyOp litO opRm = .ok litR := by decide

theorem stepRX :
    insertLogoot litR 1 (some [⟨2, 0⟩]) (some [⟨3, 0⟩]) 1 0 =
      .ok (litRX, [.ins 1 0 1]) := by decide

theorem stepRXX :
    insertLogoot litRX 1 (some [⟨2, 0⟩]) (some [⟨3, 0⟩]) 1 0 =
      .ok (litRXX, [.rem 1 1, .ins 1 0 1]) := by decide

/-- The same three-operation set delivered in two orders. -/
def c1seqA : List LogOp := [opFill, opX, opY]

def c1seqB : List LogOp := [opFill, opY, opX]

/-- Claim C1, refuted on the code: delivering the same set of three
`insertLogoot` operations in two orders yields node-wise different
BSTs.  With `opX` delivered before `opY`, both single-atom nested runs
exist (five nodes); with `opY` first, `opX`'s `fillSkipRanges` pass
finds the branch-2 node at the same level inside its skip range and
re-types it (the gate at source lines 286-289 checks level and clock
but not branch), so the branch-1 node is never created (four nodes). -/
theorem commutativity_counterexample :
    ∃ sa sb, applyOps c1seqA = .ok sa ∧ applyOps c1seqB = .ok sb ∧
      docObs sa ≠ docObs sb ∧
      sa.order.length = 5 ∧ sb.order.length = 4 := by
  refine ⟨litAXY, litBYX, ?_, ?_, by decide, by decide, by decide⟩
  · simp only [applyOps, c1seqA, List.foldlM, stepO, exceptBindOk, stepAX,
      stepAXY]
    rfl
  · simp only [applyOps, c1seqB, List.foldlM, stepO, exceptBindOk, stepBY,
      stepBYX]
    rfl

/-- The two-insert sequence of the specification's own scenario 2. -/
def c2seq : List LogOp := [opFill, opNest]

/-- Claim C2, refuted on the code: after the plain two-insert sequence of
the specification's scenario 2 — a fill of five atoms and a nested
insert between atoms 2 and 3 — `selfTest` raises.  The nested node
keeps `left_anchor = DocStart` (set at source lines 276-277 and skipped
by `linkFilledSkipRanges`' level filter at line 322), so the conflict
invariant expects every node to its left to record it in
`conflict_with`, but no pass of `insertLogoot` adds it there. -/
theorem selftest_fails_after_two_inserts :
    ∃ s, applyOps c2seq = .ok s ∧ selfTestOk s = false := by
  refine ⟨litP, ?_, by decide⟩
  simp only [applyOps, c2seq, List.foldlM, stepO, exceptBindOk, stepP]
  rfl

/-- Claim C3, refuted on the code: from the reachable state after a fill
and a removal, applying the same `insertLogoot(branch 1, [2], [3], 1,
0)` twice does not leave the BST in the state of applying it once: the
replay reduces the freshly typed node's right anchor (via the scan
block at source lines 556-565, enabled by `anchor_right.reduceLeft`
from the first application at line 623). -/
theorem insertLogoot_not_idempotent :
    ∃ s t u ops2,
      applyOps [opFill, opRm] = .ok s ∧
      insertLogoot s 1 (some [⟨2, 0⟩]) (some [⟨3, 0⟩]) 1 0 =
        .ok (t, [.ins 1 0 1]) ∧
      insertLogoot t 1 (some [⟨2, 0⟩]) (some [⟨3, 0⟩]) 1 0 =
        .ok (u, ops2) ∧
      docObs u ≠ docObs t := by
  refine ⟨litR, litRX, litRXX, [.rem 1 1, .ins 1 0 1], ?_, stepRX, stepRXX,
    by decide⟩
  simp only [applyOps, List.foldlM, stepO, exceptBindOk, stepR]
  rfl

/-! Section: Store lemmas -/

/-- Is the id present in the store? -/
def isIn (s : St) (i : Nat) : Bool :=
  (s.store.find? (fun p => p.1 = i)).isSome

theorem getN_upd (s : St) (j : Nat) (f : Node → Node) (i : Nat) :
    getN (upd s j f) i =
      if i = j ∧ isIn s i = true then f (getN s i) else getN s i := by
  unfold getN upd isIn
  simp only []
  rw [List.find?_map]
  have hp : ((fun p : Nat × Node => decide (p.1 = i)) ∘
      (fun p : Nat × Node => if p.1 = j then (p.1, f p.2) else p)) =
      (fun p : Nat × Node => decide (p.1 = i)) := by
    funext q
    by_cases hq : q.1 = j <;> simp [hq]
  rw [hp]
  cases hfind : s.store.find? (fun p => decide (p.1 = i)) with
  | none => simp
  | some q =>
    have hqi : q.1 = i := by simpa using List.find?_some hfind
    by_cases hij : i = j
    · simp [Option.map_some, hqi, hij]
    · simp [Option.map_some, hqi, hij]

theorem getN_upd_ne (s : St) (j : Nat) (f : Node → Node) (i : Nat)
    (h : i ≠ j) : getN (upd s j f) i = getN s i := by
  rw [getN_upd]
  simp [h]

theorem getN_upd_self (s : St) (i : Nat) (f : Node → Node)
    (h : isIn s i = true) : getN (upd s i f) i = f (getN s i) := by
  rw [getN_upd]
  simp [h]

theorem isIn_upd (s : St) (j : Nat) (f : Node → Node) (i : Nat) :
    isIn (upd s j f) i = isIn s i := by
  unfold isIn upd
  simp only []
  rw [List.find?_map]
  have hp : ((fun p : Nat × Node => decide (p.1 = i)) ∘
      (fun p : Nat × Node => if p.1 = j then (p.1, f p.2) else p)) =
      (fun p : Nat × Node => decide (p.1 = i)) := by
    funext q
    by_cases hq : q.1 = j <;> simp [hq]
  rw [hp]
  cases s.store.find? (fun p => decide (p.1 = i)) <;> simp

/-- The non-`value` fields of a node: the operation buffer only ever
shifts `value`s of bystander nodes. -/
def core (n : Node) :
    Pos × Int × NodeType × Int × Anchor × Anchor × List Nat :=
  (n.logoot_start, n.length, n.type, n.clk, n.left_anchor, n.right_anchor,
   n.conflict_with)

theorem core_getN_upd (s : St) (j : Nat) (f : Node → Node)
    (hf : ∀ n, core (f n) = core n) (i : Nat) :
    core (getN (upd s j f) i) = core (getN s i) := by
  rw [getN_upd]
  split
  · rw [hf]
  · rfl

theorem core_shiftGo (i : Nat) (delta : Int) :
    ∀ (ids : List Nat) (st : St) (seen : Bool) (k : Nat),
      core (getN (shiftGo i delta ids st seen) k) = core (getN st k) := by
  intro ids
  induction ids with
  | nil => intro st seen k; rfl
  | cons j js ih =>
    intro st seen k
    simp only [shiftGo]
    rw [ih]
    split
    · rw [core_getN_upd]
      intro n; rfl
    · rfl

theorem isIn_shiftGo (i : Nat) (delta : Int) :
    ∀ (ids : List Nat) (st : St) (seen : Bool) (k : Nat),
      isIn (shiftGo i delta ids st seen) k = isIn st k := by
  intro ids
  induction ids with
  | nil => intro st seen k; rfl
  | cons j js ih =>
    intro st seen k
    simp only [shiftGo]
    rw [ih]
    split
    · rw [isIn_upd]
    · rfl

theorem order_upd (s : St) (j : Nat) (f : Node → Node) :
    (upd s j f).order = s.order := rfl

theorem order_shiftGo (i : Nat) (delta : Int) :
    ∀ (ids : List Nat) (st : St) (seen : Bool),
      (shiftGo i delta ids st seen).order = st.order := by
  intro ids
  induction ids with
  | nil => intro st seen; rfl
  | cons j js ih =>
    intro st seen
    simp only [shiftGo]
    rw [ih]
    split
    · rw [order_upd]
    · rfl

theorem core_obDum (ob : OpBuf) (start delta : Int) (s : St) (i : Nat) :
    core (getN (obDum ob start delta s) i) = core (getN s i) := by
  unfold obDum
  cases ob.dummy with
  | none => rfl
  | some d =>
    simp only []
    by_cases hc : (getN s d).ldoc_start ≥ start
    · rw [if_pos hc]
      exact core_getN_upd s d
        (fun n => { n with value := n.value + delta }) (fun n => rfl) i
    · rw [if_neg hc]

theorem isIn_obDum (ob : OpBuf) (start delta : Int) (s : St) (i : Nat) :
    isIn (obDum ob start delta s) i = isIn s i := by
  unfold obDum
  cases ob.dummy with
  | none => rfl
  | some d =>
    simp only []
    by_cases hc : (getN s d).ldoc_start ≥ start
    · rw [if_pos hc]
      exact isIn_upd s d _ i
    · rw [if_neg hc]

theorem core_obShift (nid : Nat) (delta : Int) (s : St) (i : Nat) :
    core (getN (obShift nid delta s) i) = core (getN s i) := by
  unfold obShift
  cases succId s nid with
  | none => rfl
  | some m => exact core_shiftGo m delta s.order s false i

theorem isIn_obShift (nid : Nat) (delta : Int) (s : St) (i : Nat) :
    isIn (obShift nid delta s) i = isIn s i := by
  unfold obShift
  cases succId s nid with
  | none => rfl
  | some m => exact isIn_shiftGo m delta s.order s false i

/-- State/buffer effects of a successful `OperationBuffer.remove`: all
nodes keep their non-`value` fields, ids persist, a zero length is a
complete no-op, and otherwise exactly the remove operation is appended. -/
theorem obRemove_effects (s : St) (ob : OpBuf) (nid : Nat) (st len : Int)
    (s' : St) (ob' : OpBuf)
    (h : obRemove s ob nid st len = .ok (s', ob')) :
    (∀ i, core (getN s' i) = core (getN s i)) ∧
    (∀ i, isIn s' i = isIn s i) ∧
    (len = 0 → s' = s ∧ ob' = ob) ∧
    (len ≠ 0 → ob'.ops = ob.ops ++ [Op.rem st len]) := by
  unfold obRemove at h
  by_cases h0 : len = 0
  · rw [if_pos h0] at h
    injection h with h2
    obtain ⟨hs, hob⟩ := Prod.mk.injEq .. |>.mp h2
    subst hs
    subst hob
    exact ⟨fun i => rfl, fun i => rfl, fun _ => ⟨rfl, rfl⟩,
      fun hc => absurd h0 hc⟩
  · rw [if_neg h0] at h
    by_cases h1 : st < 0
    · rw [if_pos h1] at h
      cases h
    · rw [if_neg h1] at h
      by_cases h2 : len < 0
      · rw [if_pos h2] at h
        cases h
      · rw [if_neg h2] at h
        injection h with h3
        obtain ⟨hs, hob⟩ := Prod.mk.injEq .. |>.mp h3
        subst hs
        subst hob
        refine ⟨fun i => ?_, fun i => ?_, fun hc => absurd hc h0, fun _ => rfl⟩
        · rw [core_obShift, core_obDum]
        · rw [isIn_obShift, isIn_obDum]

/-- The gate of the removal loop (source line 682): clock at most `clk`
and `logoot_start` on the same nesting level as the removal's `start`. -/
def rmGate (clk : Int) (sl : Nat) (s : St) (i : Nat) : Prop :=
  (getN s i).clk ≤ clk ∧ posLen (getN s i).logoot_start = sl

instance (clk : Int) (sl : Nat) (s : St) (i : Nat) :
    Decidable (rmGate clk sl s i) :=
  inferInstanceAs (Decidable (_ ∧ _))

/-- Gate stability: `rmGate` only depends on the `core` of the node. -/
theorem rmGate_core (clk : Int) (sl : Nat) (s s' : St) (i : Nat)
    (h : core (getN s' i) = core (getN s i)) :
    rmGate clk sl s' i ↔ rmGate clk sl s i := by
  unfold rmGate
  unfold core at h
  rw [show (getN s' i).clk = (getN s i).clk from congrArg (fun t => t.2.2.2.1) h,
      show (getN s' i).logoot_start = (getN s i).logoot_start from
        congrArg (fun t => t.1) h]

/-- Effects of one iteration of the removal loop on a present node. -/
theorem rmStep_effects (clk : Int) (sl : Nat) (s : St) (ob : OpBuf)
    (i : Nat) (s' : St) (ob' : OpBuf) (hin : isIn s i = true)
    (h : rmStep clk sl (.ok (s, ob)) i = .ok (s', ob')) :
    (∀ j, j ≠ i → core (getN s' j) = core (getN s j)) ∧
    (∀ j, isIn s' j = isIn s j) ∧
    (∃ tail, ob'.ops = ob.ops ++ tail) ∧
    (rmGate clk sl s i →
      (getN s' i).type = .removal ∧ (getN s' i).clk = clk ∧
      (getN s' i).left_anchor = (getN s i).left_anchor ∧
      (getN s' i).right_anchor = (getN s i).right_anchor ∧
      ((getN s i).ldoc_length ≠ 0 →
        Op.rem (getN s i).ldoc_start (getN s i).ldoc_length ∈ ob'.ops)) ∧
    (¬ rmGate clk sl s i → s' = s ∧ ob' = ob) := by
  unfold rmStep at h
  simp only [] at h
  by_cases hg : (getN s i).clk ≤ clk ∧ posLen (getN s i).logoot_start = sl
  · rw [if_pos hg] at h
    cases hrm : obRemove s ob i (getN s i).ldoc_start (getN s i).ldoc_length
      with
    | error e =>
      rw [hrm] at h
      cases h
    | ok p =>
      obtain ⟨s1, ob1⟩ := p
      rw [hrm] at h
      injection h with h2
      obtain ⟨hs, hob⟩ := Prod.mk.injEq .. |>.mp h2
      subst hs
      subst hob
      obtain ⟨hcore, hisin, hzero, hops⟩ :=
        obRemove_effects s ob i (getN s i).ldoc_start (getN s i).ldoc_length
          s1 ob1 hrm
      have hin1 : isIn s1 i = true := by rw [hisin]; exact hin
      refine ⟨fun j hj => ?_, fun j => ?_, ?_, fun _ => ?_,
        fun hc => absurd hg hc⟩
      · rw [getN_upd_ne _ _ _ _ hj]
        exact hcore j
      · rw [isIn_upd]
        exact hisin j
      · by_cases hz : (getN s i).ldoc_length = 0
        · exact ⟨[], by rw [(hzero hz).2, List.append_nil]⟩
        · exact ⟨[Op.rem (getN s i).ldoc_start (getN s i).ldoc_length], hops hz⟩
      · rw [getN_upd_self _ _ _ hin1]
        have hc1 : core (getN s1 i) = core (getN s i) := hcore i
        unfold core at hc1
        refine ⟨rfl, rfl, ?_, ?_, fun hz => ?_⟩
        · exact congrArg (fun t => t.2.2.2.2.1) hc1
        · exact congrArg (fun t => t.2.2.2.2.2.1) hc1
        · rw [hops hz]
          simp
  · rw [if_neg hg] at h
    injection h with h2
    obtain ⟨hs, hob⟩ := Prod.mk.injEq .. |>.mp h2
    subst hs
    subst hob
    exact ⟨fun j _ => rfl, fun j => rfl, ⟨[], (List.append_nil _).symm⟩,
      fun hc => absurd hc hg, fun _ => ⟨rfl, rfl⟩⟩

/-- The removal fold propagates errors. -/
theorem rmFold_error (clk : Int) (sl : Nat) (e : Err) :
    ∀ ids : List Nat, ids.foldl (rmStep clk sl) (.error e) = .error e := by
  intro ids
  induction ids with
  | nil => rfl
  | cons j js ih => exact ih

theorem core_proj (n m : Node) (h : core n = core m) :
    n.logoot_start = m.logoot_start ∧ n.length = m.length ∧
    n.type = m.type ∧ n.clk = m.clk ∧ n.left_anchor = m.left_anchor ∧
    n.right_anchor = m.right_anchor ∧ n.conflict_with = m.conflict_with := by
  unfold core at h
  exact ⟨congrArg (fun t => t.1) h, congrArg (fun t => t.2.1) h,
    congrArg (fun t => t.2.2.1) h, congrArg (fun t => t.2.2.2.1) h,
    congrArg (fun t => t.2.2.2.2.1) h, congrArg (fun t => t.2.2.2.2.2.1) h,
    congrArg (fun t => t.2.2.2.2.2.2) h⟩

theorem ldoc_length_core (n m : Node) (h : core n = core m) :
    n.ldoc_length = m.ldoc_length := by
  obtain ⟨_, h2, h3, _⟩ := core_proj n m h
  unfold Node.ldoc_length
  rw [h2, h3]

/-- The frame of one removal-loop iteration: bystander nodes keep their
non-`value` fields, ids persist, and operations only accumulate. -/
theorem rmStep_frame (clk : Int) (sl : Nat) (s : St) (ob : OpBuf)
    (i : Nat) (s' : St) (ob' : OpBuf)
    (h : rmStep clk sl (.ok (s, ob)) i = .ok (s', ob')) :
    (∀ j, j ≠ i → core (getN s' j) = core (getN s j)) ∧
    (∀ j, isIn s' j = isIn s j) ∧
    (∃ tail, ob'.ops = ob.ops ++ tail) := by
  unfold rmStep at h
  simp only [] at h
  by_cases hg : (getN s i).clk ≤ clk ∧ posLen (getN s i).logoot_start = sl
  · rw [if_pos hg] at h
    cases hrm : obRemove s ob i (getN s i).ldoc_start (getN s i).ldoc_length
      with
    | error e =>
      rw [hrm] at h
      cases h
    | ok p =>
      obtain ⟨s1, ob1⟩ := p
      rw [hrm] at h
      injection h with h2
      obtain ⟨hs, hob⟩ := Prod.mk.injEq .. |>.mp h2
      subst hs
      subst hob
      obtain ⟨hcore, hisin, _, hops⟩ :=
        obRemove_effects s ob i (getN s i).ldoc_start
          (getN s i).ldoc_length s1 ob1 hrm
      refine ⟨fun j hj => ?_, fun j => ?_, ?_⟩
      · rw [getN_upd_ne _ _ _ _ hj]
        exact hcore j
      · rw [isIn_upd]
        exact hisin j
      · by_cases hz : (getN s i).ldoc_length = 0
        · obtain ⟨_, hob⟩ :=
            (obRemove_effects s ob i _ _ s1 ob1 hrm).2.2.1 hz
          exact ⟨[], by rw [hob, List.append_nil]⟩
        · exact ⟨[Op.rem (getN s i).ldoc_start (getN s i).ldoc_length],
            hops hz⟩
  · rw [if_neg hg] at h
    injection h with h2
    obtain ⟨hs, hob⟩ := Prod.mk.injEq .. |>.mp h2
    subst hs
    subst hob
    exact ⟨fun j _ => rfl, fun j => rfl, ⟨[], (List.append_nil _).symm⟩⟩

/-- Frame of the whole removal loop for ids outside the range. -/
theorem rmLoop_frame (clk : Int) (sl : Nat) :
    ∀ (ids : List Nat) (s : St) (ob : OpBuf) (s' : St) (ob' : OpBuf)
      (k : Nat), rmLoop clk sl s ob ids = .ok (s', ob') → k ∉ ids →
      core (getN s' k) = core (getN s k) ∧ isIn s' k = isIn s k := by
  intro ids
  induction ids with
  | nil =>
    intro s ob s' ob' k h _
    injection h with h2
    obtain ⟨hs, hob⟩ := Prod.mk.injEq .. |>.mp h2
    subst hs
    exact ⟨rfl, rfl⟩
  | cons j js ih =>
    intro s ob s' ob' k h hk
    unfold rmLoop at h
    rw [List.foldl_cons] at h
    cases hstep : rmStep clk sl (.ok (s, ob)) j with
    | error e =>
      rw [hstep, rmFold_error] at h
      cases h
    | ok p =>
      obtain ⟨s1, ob1⟩ := p
      rw [hstep] at h
      obtain ⟨hc1, hi1, _⟩ := rmStep_frame clk sl s ob j s1 ob1 hstep
      have hkj : k ≠ j := fun hc => hk (hc ▸ List.mem_cons_self j js)
      have hkjs : k ∉ js := fun hc => hk (List.mem_cons_of_mem j hc)
      obtain ⟨hc2, hi2⟩ := ih s1 ob1 s' ob' k h hkjs
      exact ⟨hc2.trans (hc1 k hkj), hi2.trans (hi1 k)⟩

/-- Operations only accumulate over the removal loop. -/
theorem rmLoop_ops (clk : Int) (sl : Nat) :
    ∀ (ids : List Nat) (s : St) (ob : OpBuf) (s' : St) (ob' : OpBuf),
      rmLoop clk sl s ob ids = .ok (s', ob') →
      ∃ tail, ob'.ops = ob.ops ++ tail := by
  intro ids
  induction ids with
  | nil =>
    intro s ob s' ob' h
    injection h with h2
    obtain ⟨hs, hob⟩ := Prod.mk.injEq .. |>.mp h2
    subst hob
    exact ⟨[], (List.append_nil _).symm⟩
  | cons j js ih =>
    intro s ob s' ob' h
    unfold rmLoop at h
    rw [List.foldl_cons] at h
    cases hstep : rmStep clk sl (.ok (s, ob)) j with
    | error e =>
      rw [hstep, rmFold_error] at h
      cases h
    | ok p =>
      obtain ⟨s1, ob1⟩ := p
      rw [hstep] at h
      obtain ⟨t1, ht1⟩ := (rmStep_frame clk sl s ob j s1 ob1 hstep).2.2
      obtain ⟨t2, ht2⟩ := ih s1 ob1 s' ob' h
      exact ⟨t1 ++ t2, by rw [ht2, ht1, List.append_assoc]⟩

/-- Claim C5: the removal loop of `removeLogoot` (source lines 681-687):
a node of the sliced removal range is re-typed to `REMOVAL` with its
clock assigned `clk`, and a `remove` of its current `ldoc_length`
issued to the buffer, if and only if its clock is at most `clk` and its
`logoot_start` has the same nesting length as the removal's `start`
(`rmGate`); a node with a higher clock or different nesting keeps all
its non-`value` fields (type, clock, anchors, positions, conflicts). -/
theorem removeLogoot_gate_spec (clk : Int) (sl : Nat) :
    ∀ (ids : List Nat) (s : St) (ob : OpBuf) (s' : St) (ob' : OpBuf),
      ids.Nodup → (∀ i ∈ ids, isIn s i = true) →
      rmLoop clk sl s ob ids = .ok (s', ob') →
      ∀ i ∈ ids,
        (rmGate clk sl s i →
          (getN s' i).type = .removal ∧ (getN s' i).clk = clk ∧
          (getN s' i).left_anchor = (getN s i).left_anchor ∧
          (getN s' i).right_anchor = (getN s i).right_anchor ∧
          ((getN s i).ldoc_length ≠ 0 →
            ∃ st, Op.rem st (getN s i).ldoc_length ∈ ob'.ops)) ∧
        (¬ rmGate clk sl s i → core (getN s' i) = core (getN s i)) := by
  intro ids
  induction ids with
  | nil =>
    intro s ob s' ob' _ _ _ i hi
    cases hi
  | cons j js ih =>
    intro s ob s' ob' hnd hin h i hi
    unfold rmLoop at h
    rw [List.foldl_cons] at h
    cases hstep : rmStep clk sl (.ok (s, ob)) j with
    | error e =>
      rw [hstep, rmFold_error] at h
      cases h
    | ok p =>
      obtain ⟨s1, ob1⟩ := p
      rw [hstep] at h
      have hinj : isIn s j = true := hin j (List.mem_cons_self j js)
      obtain ⟨hfr, hfin, _⟩ := rmStep_frame clk sl s ob j s1 ob1 hstep
      have hjnjs : j ∉ js := (List.nodup_cons.mp hnd).1
      rcases List.mem_cons.mp hi with rfl | hijs
      · -- i = j: processed first, untouched afterwards
        obtain ⟨hcL, hiL⟩ :=
          rmLoop_frame clk sl js s1 ob1 s' ob' i h hjnjs
        obtain ⟨_, _, _, hgate, hngate⟩ :=
          rmStep_effects clk sl s ob i s1 ob1 hinj hstep
        constructor
        · intro hg
          obtain ⟨ht, hc, hla, hra, hop⟩ := hgate hg
          obtain ⟨_, _, hpt, hpc, hpla, hpra, _⟩ :=
            core_proj _ _ hcL
          refine ⟨hpt.trans ht, hpc.trans hc, hpla.trans hla,
            hpra.trans hra, fun hz => ?_⟩
          obtain ⟨t2, ht2⟩ := rmLoop_ops clk sl js s1 ob1 s' ob' h
          exact ⟨(getN s i).ldoc_start, by
            rw [ht2]
            exact List.mem_append_left _ (hop hz)⟩
        · intro hg
          obtain ⟨hs1, hob1⟩ := hngate hg
          rw [hcL, hs1]
      · -- i in the tail
        have hineq : i ≠ j := fun hc => hjnjs (hc ▸ hijs)
        have hcore1 : core (getN s1 i) = core (getN s i) := hfr i hineq
        have hin1 : ∀ k ∈ js, isIn s1 k = true := fun k hk => by
          rw [hfin k]
          exact hin k (List.mem_cons_of_mem j hk)
        obtain ⟨hgate, hngate⟩ :=
          ih s1 ob1 s' ob' (List.nodup_cons.mp hnd).2 hin1 h i hijs
        constructor
        · intro hg
          obtain ⟨ht, hc, hla, hra, hop⟩ :=
            hgate ((rmGate_core clk sl s s1 i hcore1).mpr hg)
          obtain ⟨_, _, _, _, hpla, hpra, _⟩ := core_proj _ _ hcore1
          refine ⟨ht, hc, hla.trans hpla, hra.trans hpra, fun hz => ?_⟩
          rw [← ldoc_length_core _ _ hcore1]
          refine hop ?_
          rw [ldoc_length_core _ _ hcore1]
          exact hz
        · intro hg
          have := hngate
            (fun hc => hg ((rmGate_core clk sl s s1 i hcore1).mp hc))
          rw [this, hcore1]

/-- A single-`DATA`-node document for exercising the removal gate. -/
def litC5 : St :=
  ⟨[(0, ⟨0, [⟨1, 0⟩], 2, .data, 1, 0, .docStart, .docEnd, []⟩)], [0], 1⟩

/-- State `litC5` after the removal loop at clock 2. -/
def litC5r : St :=
  ⟨[(0, ⟨0, [⟨1, 0⟩], 2, .removal, 2, 0, .docStart, .docEnd, []⟩)], [0], 1⟩

/-- Witness for the removal-gate theorem at a concrete input: a `DATA`
node with clock 1 on nesting level 1 is re-typed by a clock-2 removal
at the same level, its anchors untouched, with the remove emitted. -/
theorem removeLogoot_gate_spec_witness :
    (getN litC5r 0).type = .removal ∧ (getN litC5r 0).clk = 2 ∧
    (getN litC5r 0).left_anchor = (getN litC5 0).left_anchor ∧
    (getN litC5r 0).right_anchor = (getN litC5 0).right_anchor ∧
    ((getN litC5 0).ldoc_length ≠ 0 →
      ∃ st, Op.rem st (getN litC5 0).ldoc_length ∈
        (⟨[Op.rem 0 2], none, 0⟩ : OpBuf).ops) := by
  have h : rmLoop 2 1 litC5 ⟨[], none, 0⟩ [0] =
      .ok (litC5r, ⟨[Op.rem 0 2], none, 0⟩) := by decide
  obtain ⟨hg, _⟩ := removeLogoot_gate_spec 2 1 [0] litC5 ⟨[], none, 0⟩
    litC5r ⟨[Op.rem 0 2], none, 0⟩ (by decide) (by decide) h 0
    (by decide)
  obtain ⟨h1, h2, h3, h4, h5⟩ := hg (by decide)
  exact ⟨h1, h2, h3, h4, fun _ => h5 (by decide)⟩

/-- Claim C10: a zero-length `insert` or `remove` on the operation buffer
is a complete no-op on every state: no operation is appended, no dummy
or successor offset is touched, regardless of `start` and `offset`. -/
theorem obuf_zero_length_noop (s : St) (ob : OpBuf) (nid : Nat)
    (start offset : Int) :
    obInsert s ob nid start offset 0 = .ok (s, ob) ∧
    obRemove s ob nid start 0 = .ok (s, ob) := by
  constructor <;> rfl

def c8buf : OpBuf := ⟨[], none, 5⟩

/-- Claim C8 counterexample: with `length_avail = 5`, the insert at
`offset 2, length 4` raises the Fatal kind (`FatalError` at source
lines 121-125), not InvalidArgument as the claim states. -/
theorem obuf_overflow_error_kind :
    obInsert emptySt c8buf 0 0 2 4 = .error .fatal ∧
    obInsert emptySt c8buf 0 0 2 4 ≠ .error .invalidArgument := by
  constructor
  · decide
  · decide

/-- Claim C8 as amended: the operation buffer's insert raises `Fatal`
(not InvalidArgument) whenever `offset + length` exceeds the declared
`length_avail` (for positive length and non-negative start), and
accepts any insert with non-negative start, positive length, and
`offset + length ≤ length_avail`. -/
theorem obuf_insert_bounds (s : St) (ob : OpBuf) (nid : Nat)
    (start offset length : Int) :
    (0 < length → 0 ≤ start → ob.avail < offset + length →
      obInsert s ob nid start offset length = .error .fatal) ∧
    (0 < length → 0 ≤ start → offset + length ≤ ob.avail →
      ∃ p, obInsert s ob nid start offset length = .ok p) := by
  constructor
  · intro hl hs hov
    unfold obInsert
    rw [if_neg (by omega), if_neg (by omega), if_neg (by omega),
        if_pos (by omega)]
  · intro hl hs hle
    unfold obInsert
    rw [if_neg (by omega), if_neg (by omega), if_neg (by omega),
        if_neg (by omega)]
    exact ⟨_, rfl⟩

/-- Witness for the amended buffer-bounds theorem at concrete inputs. -/
theorem obuf_insert_bounds_witness :
    obInsert emptySt c8buf 0 1 2 4 = .error .fatal ∧
    ∃ p, obInsert emptySt c8buf 0 1 1 4 = .ok p :=
  ⟨(obuf_insert_bounds emptySt c8buf 0 1 2 4).1 (by decide) (by decide)
      (by decide),
   (obuf_insert_bounds emptySt c8buf 0 1 1 4).2 (by decide) (by decide)
      (by decide)⟩

theorem uniqueData_no_invalid (s : St) (ids : List Nat) :
    uniqueData s ids ≠ .error .invalidArgument := by
  unfold uniqueData
  cases h : dataNodes s ids with
  | nil => intro hc; cases hc
  | cons d t =>
    cases t with
    | nil => intro hc; cases hc
    | cons e u => intro hc; injection hc with hc2; cases hc2

/-- Claim C9: `insertLocal` raises `InvalidArgument` (the user-level
`TypeError` of source lines 437-442) exactly when `start < 0` or
`length ≤ 0`; every other failure is of the `Internal` kind, and the
function performs no state change (it is read-only in the model). -/
theorem insertLocal_invalid_iff (s : St) (start length : Int) :
    insertLocal s start length = .error .invalidArgument ↔
      start < 0 ∨ length ≤ 0 := by
  unfold insertLocal
  by_cases h1 : start < 0
  · rw [if_pos h1]
    simp [h1]
  · rw [if_neg h1]
    by_cases h2 : length ≤ 0
    · rw [if_pos h2]
      simp [h2]
    · rw [if_neg h2]
      simp only []
      constructor
      · intro hc
        exfalso
        cases hu : uniqueData s (lesserBucket s start) with
        | error e =>
          rw [hu] at hc
          simp only [] at hc
          injection hc with he
          exact uniqueData_no_invalid s (lesserBucket s start) (he ▸ hu)
        | ok od =>
          rw [hu] at hc
          cases od with
          | some d =>
            simp only [] at hc
            by_cases hs : (getN s d).ldoc_end > start
            · rw [if_pos hs] at hc
              cases hc
            · rw [if_neg hs] at hc
              cases hg : uniqueData s (greaterBucket s start) with
              | error e =>
                rw [hg] at hc
                simp only [] at hc
                injection hc with he
                exact uniqueData_no_invalid s (greaterBucket s start)
                  (he ▸ hg)
              | ok g =>
                rw [hg] at hc
                simp only [] at hc
                cases hc
          | none =>
            simp only [] at hc
            cases hg : uniqueData s (greaterBucket s start) with
            | error e =>
              rw [hg] at hc
              simp only [] at hc
              injection hc with he
              exact uniqueData_no_invalid s (greaterBucket s start)
                (he ▸ hg)
            | ok g =>
              rw [hg] at hc
              simp only [] at hc
              cases hc
      · intro hc
        rcases hc with hc | hc
        · exact absurd hc h1
        · exact absurd hc h2

/-- The left/right prescription of the spec's §4.5 steps 5-6, written
from the spec's words for comparison with `insertLocal`: when the
unique `DATA` node of the lesser bucket spans `start` strictly, a point
insertion at `logoot_start.offsetLowest(start - ldoc_start)`; otherwise
the lesser `DATA` node's `logoot_end` (or nothing) on the left and the
greater-bucket `DATA` node's `logoot_start` (or nothing) on the right. -/
def specInsertLocalLR (s : St) (start : Int) : Option Pos × Option Pos :=
  let gRight := (dataNodes s (greaterBucket s start)).head?.map
    (fun i => (getN s i).logoot_start)
  match dataNodes s (lesserBucket s start) with
  | [d] =>
    if (getN s d).ldoc_end > start then
      let p := offsetLowest (getN s d).logoot_start
        (start - (getN s d).ldoc_start)
      (some p, some p)
    else (some (Node.logoot_end (getN s d)), gRight)
  | _ => (none, gRight)

theorem uniqueData_ok_head (s : St) (ids : List Nat) (g : Option Nat)
    (h : uniqueData s ids = .ok g) : g = (dataNodes s ids).head? := by
  unfold uniqueData at h
  cases hd : dataNodes s ids with
  | nil =>
    rw [hd] at h
    injection h with h2
    rw [← h2]
    rfl
  | cons d t =>
    cases t with
    | nil =>
      rw [hd] at h
      injection h with h2
      rw [← h2]
      rfl
    | cons e u =>
      rw [hd] at h
      cases h

/-- Claim C4: for every successful `insertLocal(start, length)`, the
returned `left`/`right` pair is exactly the spec's prescription: a
point insertion inside the spanning lesser `DATA` node, and otherwise
the lesser `DATA` node's end and the greater `DATA` node's start. -/
theorem insertLocal_left_right (s : St) (start length : Int) (r : InsRes)
    (h : insertLocal s start length = .ok r) :
    (r.left, r.right) = specInsertLocalLR s start := by
  unfold insertLocal at h
  by_cases h1 : start < 0
  · rw [if_pos h1] at h
    cases h
  · rw [if_neg h1] at h
    by_cases h2 : length ≤ 0
    · rw [if_pos h2] at h
      cases h
    · rw [if_neg h2] at h
      simp only [] at h
      unfold specInsertLocalLR
      cases hl : dataNodes s (lesserBucket s start) with
      | nil =>
        have hu : uniqueData s (lesserBucket s start) = .ok none := by
          unfold uniqueData
          rw [hl]
        rw [hu] at h
        simp only [] at h
        cases hg : uniqueData s (greaterBucket s start) with
        | error e =>
          rw [hg] at h
          simp only [] at h
          cases h
        | ok g =>
          rw [hg] at h
          simp only [] at h
          injection h with hr
          rw [← hr]
          simp only []
          rw [uniqueData_ok_head s (greaterBucket s start) g hg]
      | cons d t =>
        cases t with
        | nil =>
          have hu : uniqueData s (lesserBucket s start) = .ok (some d) := by
            unfold uniqueData
            rw [hl]
          rw [hu] at h
          simp only [] at h
          by_cases hspan : (getN s d).ldoc_end > start
          · rw [if_pos hspan] at h
            injection h with hr
            rw [← hr]
            simp only []
            rw [if_pos hspan]
          · rw [if_neg hspan] at h
            cases hg : uniqueData s (greaterBucket s start) with
            | error e =>
              rw [hg] at h
              simp only [] at h
              cases h
            | ok g =>
              rw [hg] at h
              simp only [] at h
              injection h with hr
              rw [← hr]
              simp only []
              rw [if_neg hspan,
                uniqueData_ok_head s (greaterBucket s start) g hg]
        | cons e u =>
          have hu : uniqueData s (lesserBucket s start) = .error .internal := by
            unfold uniqueData
            rw [hl]
          rw [hu] at h
          simp only [] at h
          cases h

/-- Witness for the `left`/`right` theorem: on a document with one
`DATA` run `[0, 5)`, `insertLocal(3, 1)` is the point insertion at
atom 3. -/
theorem insertLocal_left_right_witness :
    ((⟨some [⟨3, 0⟩], some [⟨3, 0⟩], 0, 1⟩ : InsRes).left,
     (⟨some [⟨3, 0⟩], some [⟨3, 0⟩], 0, 1⟩ : InsRes).right) =
      specInsertLocalLR litO 3 :=
  insertLocal_left_right litO 3 1 _ (by decide)

/-- The clock prescription of the amended claim C6, with the source
fold's zero floor made explicit: zero when no non-`DATA` node touches
`start` or when the maximum of their clocks is negative, and otherwise
one plus that maximum; on a non-empty clock list `t.foldl max c` is the
genuine (unseeded) maximum. -/
def specDerivedClkFloor (s : St) (start : Int) : Int :=
  match nonDataClks s (lesserBucket s start ++ greaterBucket s start) with
  | [] => 0
  | c :: t => max 0 (1 + t.foldl max c)

theorem insertLocal_ok_clk (s : St) (start length : Int) (r : InsRes)
    (h : insertLocal s start length = .ok r) :
    r.clk = deriveClk
      (nonDataClks s (lesserBucket s start ++ greaterBucket s start)) := by
  unfold insertLocal at h
  by_cases h1 : start < 0
  · rw [if_pos h1] at h
    cases h
  · rw [if_neg h1] at h
    by_cases h2 : length ≤ 0
    · rw [if_pos h2] at h
      cases h
    · rw [if_neg h2] at h
      simp only [] at h
      cases hu : uniqueData s (lesserBucket s start) with
      | error e =>
        rw [hu] at h
        simp only [] at h
        cases h
      | ok od =>
        rw [hu] at h
        cases od with
        | some d =>
          simp only [] at h
          by_cases hspan : (getN s d).ldoc_end > start
          · rw [if_pos hspan] at h
            injection h with hr
            rw [← hr]
          · rw [if_neg hspan] at h
            cases hg : uniqueData s (greaterBucket s start) with
            | error e =>
              rw [hg] at h
              simp only [] at h
              cases h
            | ok g =>
              rw [hg] at h
              simp only [] at h
              injection h with hr
              rw [← hr]
        | none =>
          simp only [] at h
          cases hg : uniqueData s (greaterBucket s start) with
          | error e =>
            rw [hg] at h
            simp only [] at h
            cases h
          | ok g =>
            rw [hg] at h
            simp only [] at h
            injection h with hr
            rw [← hr]

theorem deriveClk_step (a c : Int) :
    (if c ≥ a then c + 1 else a) = max a (c + 1) := by
  by_cases h : c ≥ a
  · rw [if_pos h, max_eq_right (by omega)]
  · rw [if_neg h, max_eq_left (by omega)]

theorem deriveClk_eq_maxp1 : ∀ (l : List Int) (a : Int),
    l.foldl (fun m c => if c ≥ m then c + 1 else m) a =
      l.foldl (fun m c => max m (c + 1)) a := by
  intro l
  induction l with
  | nil => intro a; rfl
  | cons c t ih =>
    intro a
    simp only [List.foldl_cons]
    rw [deriveClk_step]
    exact ih _

theorem foldl_maxp1_succ : ∀ (l : List Int) (a : Int),
    l.foldl (fun m c => max m (c + 1)) (a + 1) = (l.foldl max a) + 1 := by
  intro l
  induction l with
  | nil => intro a; rfl
  | cons c t ih =>
    intro a
    simp only [List.foldl_cons]
    rw [show max (a + 1) (c + 1) = max a c + 1 from max_add_add_right a c 1]
    exact ih _

theorem foldl_maxp1_mono : ∀ (l : List Int) (a : Int),
    a ≤ l.foldl (fun m c => max m (c + 1)) a := by
  intro l
  induction l with
  | nil => intro a; exact le_refl a
  | cons c t ih =>
    intro a
    simp only [List.foldl_cons]
    exact le_trans (le_max_left a (c + 1)) (ih _)

theorem foldl_maxp1_gt : ∀ (l : List Int) (a c : Int), c ∈ l →
    c < l.foldl (fun m c => max m (c + 1)) a := by
  intro l
  induction l with
  | nil => intro a c hc; cases hc
  | cons d t ih =>
    intro a c hc
    simp only [List.foldl_cons]
    rcases List.mem_cons.mp hc with rfl | hct
    · exact lt_of_lt_of_le
        (lt_of_lt_of_le (lt_add_one c) (le_max_right a (c + 1)))
        (foldl_maxp1_mono t _)
    · exact ih _ c hct

/-- Every clock in the list is strictly below the derived clock. -/
theorem deriveClk_gt (l : List Int) : ∀ c ∈ l, c < deriveClk l := by
  intro c hc
  unfold deriveClk
  rw [deriveClk_eq_maxp1]
  exact foldl_maxp1_gt l 0 c hc

theorem foldl_maxp1_maxsplit : ∀ (t : List Int) (a b : Int),
    t.foldl (fun m c => max m (c + 1)) (max a b) =
      max a (t.foldl (fun m c => max m (c + 1)) b) := by
  intro t
  induction t with
  | nil => intro a b; rfl
  | cons c t ih =>
    intro a b
    simp only [List.foldl_cons]
    rw [max_assoc, ih]

/-- On a non-empty clock list, the fold of `insertLocal` computes the
maximum of zero and one plus the genuine maximum of the clocks. -/
theorem deriveClk_cons (c : Int) (t : List Int) :
    deriveClk (c :: t) = max 0 (1 + t.foldl max c) := by
  unfold deriveClk
  rw [deriveClk_eq_maxp1]
  simp only [List.foldl_cons]
  rw [foldl_maxp1_maxsplit t 0 (c + 1), foldl_maxp1_succ t c,
    add_comm (t.foldl max c) 1]

def opNeg : LogOp := .ins 0 none none 1 (-2)

def opNegRm : LogOp := .rem [⟨0, 0⟩] 1 (-2)

theorem stepN1 : applyOp emptySt opNeg = .ok litC6a := by decide

theorem stepN2 : applyOp litC6a opNegRm = .ok litC6 := by decide

/-- Claim C6 counterexample: at the reachable document holding a single
tombstone with clock -2 touching local offset 0 (created by an
`insertLogoot` and a `removeLogoot` both at clock -2), `insertLocal(0,
1)` returns clock 0, not the claim's `1 + max = -1`: the source fold
(lines 449-457) is seeded at zero, so an all-negative set of touching
clocks floors the result at zero. -/
theorem insertLocal_clock_negative_floor :
    applyOps [opNeg, opNegRm] = .ok litC6 ∧
    insertLocal litC6 0 1 = .ok ⟨none, none, 0, 1⟩ ∧
    nonDataClks litC6 (lesserBucket litC6 0 ++ greaterBucket litC6 0) =
      [-2] ∧
    (0 : Int) ≠ 1 + (-2) := by
  refine ⟨?_, by decide, by decide, by decide⟩
  simp only [applyOps, List.foldlM, stepN1, exceptBindOk, stepN2]
  rfl

/-- Claim C6 as amended: for every successful `insertLocal`, the
returned clock is the maximum of zero and one plus the maximum clock
among the non-`DATA` nodes touching `start` (so zero when there are
none or when all their clocks are negative), and it strictly dominates
every such clock. -/
theorem insertLocal_clock_floor (s : St) (start length : Int)
    (r : InsRes) (h : insertLocal s start length = .ok r) :
    r.clk = specDerivedClkFloor s start ∧
    ∀ c ∈ nonDataClks s (lesserBucket s start ++ greaterBucket s start),
      c < r.clk := by
  have hc := insertLocal_ok_clk s start length r h
  constructor
  · rw [hc]
    unfold specDerivedClkFloor
    cases hl : nonDataClks s (lesserBucket s start ++ greaterBucket s start)
      with
    | nil => rfl
    | cons c t => exact deriveClk_cons c t
  · intro c hm
    rw [hc]
    exact deriveClk_gt _ c hm

/-- Witness for the amended clock theorem: on the document with a
clock-1 tombstone at local offset 1, `insertLocal(1, 1)` returns clock
2, strictly above the tombstone's clock. -/
theorem insertLocal_clock_floor_witness :
    (⟨some [⟨1, 0⟩], some [⟨3, 0⟩], 2, 1⟩ : InsRes).clk =
      specDerivedClkFloor litR 1 ∧
    ∀ c ∈ nonDataClks litR (lesserBucket litR 1 ++ greaterBucket litR 1),
      c < (⟨some [⟨1, 0⟩], some [⟨3, 0⟩], 2, 1⟩ : InsRes).clk :=
  insertLocal_clock_floor litR 1 1 _ (by decide)

/-- A two-node state for the anchor-patch step: a `DATA` node with
`right_anchor` at atom 9 and a `REMOVAL` node spanning `[5, 6)`. -/
def st7 : St :=
  ⟨[(0, ⟨0, [⟨0, 0⟩], 1, .data, 0, 0, .docStart, .pos [⟨9, 0⟩], []⟩),
    (1, ⟨1, [⟨5, 0⟩], 1, .removal, 0, 5, .pos [⟨5, 0⟩], .pos [⟨6, 0⟩], []⟩)],
   [0, 1], 2⟩

/-- Claim C7 counterexample: a scan node whose `true_right` (atom 9) is
at or beyond the current node's `logoot_end` (atom 6) is nonetheless
added to the current node's `conflict_with i'` — the add at source line
393 is unconditional — refuting the claim that such a node is left out
of `conflict_with`. -/
theorem patch_adds_conflict_beyond_end :
    (getN st7 0).true_right = .pos [⟨9, 0⟩] ∧
    posLt [⟨9, 0⟩]
      (offsetLowest (getN st7 1).logoot_start (getN st7 1).length) = false ∧
    (getN st7 1).conflict_with = [] ∧
    (getN (praSnodeF 1 (st7, []) 0).1 1).conflict_with = [0] ∧
    getN (praSnodeF 1 (st7, []) 0).1 0 = getN st7 0 := by decide

/-- Claim C7 as amended: the per-scan-node step of the forward pass of
`patchRemovalAnchors` at a non-`DATA` current node: with `apos =
snode.true_right` a real position, if `apos < current.logoot_start` the
scan node is dropped and nothing changes; otherwise the scan node is
kept and always added to `current.conflict_with`, and additionally when
`apos < current.logoot_end` its `right_anchor` is assigned
`current.logoot_end` (a scan node with `apos ≥ current.logoot_end`
keeps all its fields but is still added to the conflict set). -/
theorem praSnodeF_spec (s : St) (kept : List Nat) (cur snode : Nat)
    (p : Pos) (hne : snode ≠ cur) (hin : isIn s cur = true)
    (hsn : isIn s snode = true)
    (hp : (getN s snode).true_right = .pos p) :
    (posLt p (getN s cur).logoot_start = true →
      praSnodeF cur (s, kept) snode = (s, kept)) ∧
    (posLt p (getN s cur).logoot_start = false →
      (praSnodeF cur (s, kept) snode).2 = kept ++ [snode] ∧
      (getN (praSnodeF cur (s, kept) snode).1 cur).conflict_with =
        cwAdd (getN s cur).conflict_with snode ∧
      (posLt p (offsetLowest (getN s cur).logoot_start
          (getN s cur).length) = true →
        (getN (praSnodeF cur (s, kept) snode).1 snode).right_anchor =
          .pos (offsetLowest (getN s cur).logoot_start
            (getN s cur).length)) ∧
      (posLt p (offsetLowest (getN s cur).logoot_start
          (getN s cur).length) = false →
        getN (praSnodeF cur (s, kept) snode).1 snode = getN s snode)) := by
  constructor
  · intro hcond
    unfold praSnodeF
    simp only [hp, aLtP]
    rw [if_pos hcond]
  · intro hcond
    have hcprop : ¬ (posLt p (getN s cur).logoot_start = true) := by
      rw [hcond]
      exact Bool.false_ne_true
    refine ⟨?_, ?_, ?_, ?_⟩
    · unfold praSnodeF
      simp only [hp, aLtP]
      rw [if_neg hcprop]
    · unfold praSnodeF
      simp only [hp, aLtP]
      rw [if_neg hcprop]
      simp only []
      by_cases hend : posLt p (offsetLowest (getN s cur).logoot_start
        (getN s cur).length) = true
      · rw [if_pos hend,
          getN_upd_self _ _ _ (by rw [isIn_upd]; exact hin)]
        simp only []
        rw [getN_upd_ne _ _ _ _ (Ne.symm hne)]
      · rw [if_neg hend, getN_upd_self _ _ _ hin]
    · intro hend
      unfold praSnodeF
      simp only [hp, aLtP]
      rw [if_neg hcprop]
      simp only []
      rw [if_pos hend, getN_upd_ne _ _ _ _ hne,
        getN_upd_self _ _ _ hsn]
    · intro hend
      have hendprop : ¬ (posLt p (offsetLowest (getN s cur).logoot_start
          (getN s cur).length) = true) := by
        rw [hend]
        exact Bool.false_ne_true
      unfold praSnodeF
      simp only [hp, aLtP]
      rw [if_neg hcprop]
      simp only []
      rw [if_neg hendprop, getN_upd_ne _ _ _ _ hne]

/-- Witness for the amended anchor-patch theorem at the concrete
two-node state: the scan node anchored beyond the tombstone's end is
kept, added to the conflict set, and keeps its own fields. -/
theorem praSnodeF_spec_witness :
    (posLt [⟨9, 0⟩] (getN st7 1).logoot_start = true →
      praSnodeF 1 (st7, []) 0 = (st7, [])) ∧
    (posLt [⟨9, 0⟩] (getN st7 1).logoot_start = false →
      (praSnodeF 1 (st7, []) 0).2 = [] ++ [0] ∧
      (getN (praSnodeF 1 (st7, []) 0).1 1).conflict_with =
        cwAdd (getN st7 1).conflict_with 0 ∧
      (posLt [⟨9, 0⟩] (offsetLowest (getN st7 1).logoot_start
          (getN st7 1).length) = true →
        (getN (praSnodeF 1 (st7, []) 0).1 0).right_anchor =
          .pos (offsetLowest (getN st7 1).logoot_start
            (getN st7 1).length)) ∧
      (posLt [⟨9, 0⟩] (offsetLowest (getN st7 1).logoot_start
          (getN st7 1).length) = false →
        getN (praSnodeF 1 (st7, []) 0).1 0 = getN st7 0)) :=
  praSnodeF_spec st7 [] 1 0 [⟨9, 0⟩] (by decide) (by decide) (by decide)
    (by decide)

end Logootish
